import Mathlib

/-!
Verification development for the miner-ipfs-service repository.

We give a shallow embedding of the parts of the code the specification's
claims are about: the CID-decoding heuristics
(src/hippius/substrate_interface.py `decode_hex_bytes_to_cid_string`,
src/miner_service.py `decode_profile_file_hash_to_cid`), the persistent
pin-state store (src/db_manager.py, the three SQLite tables modelled as
lists of records), and the per-cycle worker passes of src/miner_service.py
(`fetch_and_process_profile`, `process_pending_pins`, `process_failed_pins`,
`process_unpin_requests`, `report_unpinnable_cids`).

Python strings are Lean `String`s, byte values are `Nat`, the SQLite tables
are lists of records in table order.  External collaborators (the IPFS
daemon and the Substrate chain) are abstracted as oracles passed in as
function arguments: `pinOk`/`unpinOk : String → Bool` give the outcome of a
backend pin/unpin call for a CID, and the on-chain profile CID and fetched
profile content are explicit parameters.
-/

namespace MinerIpfs

/-- Tests whether the character list `s` starts with the pattern `p`
(Python `str.startswith`). -/
def listStarts : List Char → List Char → Bool
  | _, [] => true
  | [], _ :: _ => false
  | a :: as, b :: bs => a == b && listStarts as bs

/-- String version of `listStarts` (Python `str.startswith`). -/
def strStarts (s p : String) : Bool := listStarts s.data p.data

/-- Python `str.lower`; the inputs the code applies it to are ASCII, where
`Char.toLower` agrees with Python. -/
def asciiLower (s : String) : String := String.mk (s.data.map Char.toLower)

/-- Python slicing `s[n:]`. -/
def strDrop (n : Nat) (s : String) : String := String.mk (s.data.drop n)

/-- Membership in the literal `'0123456789abcdefABCDEF'` used by the
`is_likely_hex` checks in the source. -/
def isHexDigitCh (c : Char) : Bool :=
  ('0' ≤ c && c ≤ '9') || ('a' ≤ c && c ≤ 'f') || ('A' ≤ c && c ≤ 'F')

/-- Python `all(c in '0123456789abcdefABCDEF' for c in s)`. -/
def allHexDigits (s : String) : Bool := s.data.all isHexDigitCh

/-- Value of one hexadecimal digit, `none` for a non-hex character. -/
def hexDigitVal (c : Char) : Option Nat :=
  if '0' ≤ c && c ≤ '9' then some (c.toNat - 48)
  else if 'a' ≤ c && c ≤ 'f' then some (c.toNat - 87)
  else if 'A' ≤ c && c ≤ 'F' then some (c.toNat - 55)
  else none

/-- Python `binascii.unhexlify`: pairs of hex digits to bytes; fails
(`binascii.Error`) on an odd-length input or a non-hex character. -/
def unhexBytes : List Char → Option (List Nat)
  | [] => some []
  | [_] => none
  | c1 :: c2 :: rest =>
    match hexDigitVal c1, hexDigitVal c2, unhexBytes rest with
    | some hi, some lo, some bs => some ((hi * 16 + lo) :: bs)
    | _, _, _ => none

/-- UTF-8 continuation byte test. -/
def isCont (b : Nat) : Bool := 128 ≤ b && b ≤ 191

/-- Strict UTF-8 decoder matching Python `bytes.decode('utf-8')`: rejects
truncated sequences, invalid lead or continuation bytes, overlong
encodings and surrogate code points. -/
def utf8Decode : List Nat → Option (List Char)
  | [] => some []
  | b1 :: bs =>
    if b1 < 128 then (utf8Decode bs).map (fun cs => Char.ofNat b1 :: cs)
    else
      match bs with
      | [] => none
      | b2 :: bs2 =>
        if 194 ≤ b1 && b1 ≤ 223 then
          if isCont b2 then
            (utf8Decode bs2).map (fun cs => Char.ofNat ((b1 - 192) * 64 + (b2 - 128)) :: cs)
          else none
        else
          match bs2 with
          | [] => none
          | b3 :: bs3 =>
            if 224 ≤ b1 && b1 ≤ 239 then
              let lo2 := if b1 == 224 then 160 else 128
              let hi2 := if b1 == 237 then 159 else 191
              if (lo2 ≤ b2 && b2 ≤ hi2) && isCont b3 then
                (utf8Decode bs3).map (fun cs =>
                  Char.ofNat ((b1 - 224) * 4096 + (b2 - 128) * 64 + (b3 - 128)) :: cs)
              else none
            else
              match bs3 with
              | [] => none
              | b4 :: bs4 =>
                if 240 ≤ b1 && b1 ≤ 244 then
                  let lo2 := if b1 == 240 then 144 else 128
                  let hi2 := if b1 == 244 then 143 else 191
                  if (lo2 ≤ b2 && b2 ≤ hi2) && (isCont b3 && isCont b4) then
                    (utf8Decode bs4).map (fun cs =>
                      Char.ofNat ((b1 - 240) * 262144 + (b2 - 128) * 4096
                        + (b3 - 128) * 64 + (b4 - 128)) :: cs)
                  else none
                else none

/-- Composition `binascii.unhexlify(s).decode('utf-8')` as used in both
decoders; `none` models either exception. -/
def utf8OfHex (s : String) : Option String :=
  match unhexBytes s.data with
  | none => none
  | some bs =>
    match utf8Decode bs with
    | some cs => some (String.mk cs)
    | none => none

/-- The CID-shape test of substrate_interface.py (prefixes Qm/bafy/bafk/k
with the length conditions of lines 84-87). -/
def looksLikeCid (s : String) : Bool :=
  (strStarts s "Qm" && (s.length == 46))
  || (strStarts s "bafy" && decide (s.length > 50))
  || (strStarts s "bafk" && decide (s.length > 50))
  || (strStarts s "k" && decide (s.length > 50))

/-- Embedding of substrate_interface.decode_hex_bytes_to_cid_string
(lines 73-150).  On UTF-8 success the candidate is returned whether or not
it is CID-shaped (the source only varies the log message). -/
def decode_hex_bytes_to_cid_string (v : String) : Option String :=
  if v = "" then none
  else if looksLikeCid v then some v
  else
    let cleaned0 := asciiLower v
    let cleaned := if strStarts cleaned0 "0x" then strDrop 2 cleaned0 else cleaned0
    if cleaned = "" then none
    else
      match utf8OfHex cleaned with
      | some cand => some cand
      | none =>
        if allHexDigits cleaned
            && (strStarts (asciiLower cleaned) "f0" || strStarts (asciiLower cleaned) "01"
                || decide (cleaned.length > 40)) then
          some cleaned
        else if looksLikeCid v then some v
        else none

/-- The CID-shape test of miner_service.py lines 63-65 (only Qm, bafy and
k prefixes; no bafk, unlike the substrate_interface variant). -/
def profileLooksLikeCid (s : String) : Bool :=
  (strStarts s "Qm" && (s.length == 46))
  || (strStarts s "bafy" && decide (s.length > 50))
  || (strStarts s "k" && decide (s.length > 50))

/-- Python `chr`.  Lean `Char` excludes surrogate code points, which Python
`str` admits; the claims are settled on scalar-valued inputs, where the two
agree.  Values past 0x10FFFF raise in Python (caught by the decoder's
outer handler) and give `none` here. -/
def chrOfCode (n : Nat) : Option Char :=
  if n < 55296 then some (Char.ofNat n)
  else if 57344 ≤ n && n < 1114112 then some (Char.ofNat n)
  else none

/-- Python `"".join(chr(val) for val in a)` on the decoded character list. -/
def joinChr : List Nat → Option (List Char)
  | [] => some []
  | v :: vs =>
    match chrOfCode v, joinChr vs with
    | some c, some cs => some (c :: cs)
    | _, _ => none

/-- String form of `joinChr`. -/
def joinChrStr (a : List Nat) : Option String := (joinChr a).map String.mk

/-- Tests whether every character of the string is ASCII.  Python's
`binascii.unhexlify` accepts only ASCII str arguments: on a non-ASCII
string it raises a plain `ValueError` (not a `binascii.Error`), which the
inner handler of decode_profile_file_hash_to_cid (miner_service.py
line 71) does not catch. -/
def isAsciiStr (s : String) : Bool := s.data.all (fun ch => ch.toNat < 128)

/-- Embedding of miner_service.decode_profile_file_hash_to_cid
(lines 42-85).  Note that both arms of the final hex-plausibility check in
the source (lines 76-81) return `hex_string`; the branch is kept to mirror
the source.  When the joined string contains a non-ASCII character,
`binascii.unhexlify` raises a plain ValueError that bypasses the inner
`except (binascii.Error, UnicodeDecodeError)` handler and is caught by the
outer `except Exception` (lines 83-85), which returns None: the
`isAsciiStr` gate models that split.  For a pure-ASCII string, unhexlify
can only raise `binascii.Error` and the decode only `UnicodeDecodeError`,
both caught by the inner handler, whose fallback returns the string. -/
def decode_profile_file_hash_to_cid (a : List Nat) : Option String :=
  if a.isEmpty then none
  else
    match joinChrStr a with
    | none => none
    | some s =>
      if s = "" then none
      else if isAsciiStr s then
        match utf8OfHex s with
        | some cand => if profileLooksLikeCid cand then some cand else some cand
        | none =>
          if allHexDigits s
              && (strStarts (asciiLower s) "f0" || strStarts (asciiLower s) "01"
                  || decide (s.length > 40)) then some s
          else some s
      else none

/-! Data model of src/db_manager.py: the three SQLite tables as lists of
records in table order.  Timestamp columns (`last_checked`, `last_updated`,
`first_failure_timestamp`, `last_retry_timestamp`) and the autoincrement
`id` of miner_profile are not consulted by any code the claims mention and
are left out of the record types. -/

/-- Status values allowed by the CHECK constraint on pinned_cids. -/
inductive PinStatus
  | pinned
  | pending_pin
  | failed_pin
  | unpin_requested
  | unpinned
deriving DecidableEq, Repr

/-- Row of the pinned_cids table. -/
structure PinRecord where
  cid : String
  status : PinStatus
  retry_count : Nat
deriving DecidableEq, Repr

/-- Row of the miner_profile table. -/
structure ProfileRecord where
  profile_cid : String
  is_active : Bool
  pinned_locally : Bool
deriving DecidableEq, Repr

/-- Row of the unpinnable_cids table. -/
structure UnpinnableRecord where
  cid : String
  reason : String
  reported : Bool
deriving DecidableEq, Repr

/-- State of the persistent store. -/
@[ext]
structure Db where
  pinned_cids : List PinRecord
  miner_profile : List ProfileRecord
  unpinnable_cids : List UnpinnableRecord
deriving DecidableEq, Repr

/-- An empty store, the state right after initialize_database creates the
three (empty) tables. -/
def emptyDb : Db := ⟨[], [], []⟩

/-- Primary keys of the pinned_cids table. -/
def pinnedKeys (db : Db) : List String := db.pinned_cids.map (fun r => r.cid)

/-- Unique keys of the miner_profile table (`profile_cid UNIQUE`). -/
def profileKeys (db : Db) : List String := db.miner_profile.map (fun p => p.profile_cid)

/-- Primary keys of the unpinnable_cids table. -/
def unpinnableKeys (db : Db) : List String := db.unpinnable_cids.map (fun u => u.cid)

/-- Embedding of db_manager.add_cid_to_pin (lines 57-73): INSERT OR IGNORE
a ('pending_pin', 0) row, then reset status and retries on any row for this
CID still in 'failed_pin'. -/
def add_cid_to_pin (c : String) (db : Db) : Db :=
  { db with pinned_cids :=
      (if db.pinned_cids.any (fun r => r.cid == c) then db.pinned_cids
       else db.pinned_cids ++ [⟨c, .pending_pin, 0⟩]).map (fun r =>
        if r.cid == c && r.status == PinStatus.failed_pin then
          { r with status := .pending_pin, retry_count := 0 }
        else r) }

/-- Embedding of db_manager.update_cid_status (lines 75-92): the UPDATE
with a retry count (`some`) or without (`none`). -/
def update_cid_status (c : String) (s : PinStatus) (rc : Option Nat) (db : Db) : Db :=
  { db with pinned_cids := db.pinned_cids.map (fun r =>
      if r.cid == c then
        match rc with
        | some n => { r with status := s, retry_count := n }
        | none => { r with status := s }
      else r) }

/-- Embedding of db_manager.get_cids_by_status (lines 94-102): SELECT cid,
retry_count WHERE status = s. -/
def get_cids_by_status (s : PinStatus) (db : Db) : List (String × Nat) :=
  (db.pinned_cids.filter (fun r => r.status == s)).map (fun r => (r.cid, r.retry_count))

/-- Embedding of db_manager.add_unpinnable_cid (lines 104-115): INSERT OR
REPLACE, so any existing row for the CID is dropped and the fresh row gets
the column default `reported = FALSE`. -/
def add_unpinnable_cid (c reason : String) (db : Db) : Db :=
  { db with unpinnable_cids :=
      db.unpinnable_cids.filter (fun u => !(u.cid == c)) ++ [⟨c, reason, false⟩] }

/-- Embedding of db_manager.get_unpinnable_cids_to_report (lines 117-125):
SELECT cid, reason WHERE reported = FALSE. -/
def get_unpinnable_cids_to_report (db : Db) : List (String × String) :=
  (db.unpinnable_cids.filter (fun u => !u.reported)).map (fun u => (u.cid, u.reason))

/-- Embedding of db_manager.mark_unpinnable_cids_as_reported
(lines 127-141): UPDATE reported = TRUE WHERE cid IN cids. -/
def mark_unpinnable_cids_as_reported (cids : List String) (db : Db) : Db :=
  if cids.isEmpty then db
  else { db with unpinnable_cids := db.unpinnable_cids.map (fun u =>
    if cids.contains u.cid then { u with reported := true } else u) }

/-- Deactivation pass of db_manager.set_active_miner_profile (line 150):
clear is_active and pinned_locally on any active row. -/
def deactRow (p : ProfileRecord) : ProfileRecord :=
  if p.is_active then { p with is_active := false, pinned_locally := false } else p

/-- Upsert of db_manager.set_active_miner_profile (lines 154-163): INSERT
the new active profile row, ON CONFLICT on the unique profile_cid column
update that row to active instead. -/
def upsertActive (c : String) (profs : List ProfileRecord) : List ProfileRecord :=
  if profs.any (fun p => p.profile_cid == c) then
    profs.map (fun p =>
      if p.profile_cid == c then { p with is_active := true, pinned_locally := false } else p)
  else profs ++ [⟨c, true, false⟩]

/-- Embedding of db_manager.set_active_miner_profile (lines 143-175):
deactivate every active row (also clearing pinned_locally), then, when a
CID is given (Python truthiness: a non-empty string), upsert it as the
active profile and register it for pinning via add_cid_to_pin. -/
def set_active_miner_profile (oc : Option String) (db : Db) : Db :=
  match oc with
  | some c =>
    if c = "" then { db with miner_profile := db.miner_profile.map deactRow }
    else add_cid_to_pin c
      { db with miner_profile := upsertActive c (db.miner_profile.map deactRow) }
  | none => { db with miner_profile := db.miner_profile.map deactRow }

/-- Embedding of db_manager.get_active_miner_profile (lines 177-185):
SELECT profile_cid, pinned_locally WHERE is_active = TRUE, fetchone. -/
def get_active_miner_profile (db : Db) : Option (String × Bool) :=
  (db.miner_profile.find? (fun p => p.is_active)).map (fun p => (p.profile_cid, p.pinned_locally))

/-- Embedding of db_manager.update_miner_profile_pinned_status
(lines 187-198): UPDATE pinned_locally WHERE profile_cid = c AND
is_active = TRUE. -/
def update_miner_profile_pinned_status (c : String) (b : Bool) (db : Db) : Db :=
  { db with miner_profile := db.miner_profile.map (fun p =>
      if p.profile_cid == c && p.is_active then { p with pinned_locally := b } else p) }

/-- Embedding of db_manager.get_all_pinned_cids_from_db (lines 200-209). -/
def get_all_pinned_cids_from_db (db : Db) : List String :=
  (db.pinned_cids.filter (fun r =>
    r.status == PinStatus.pinned || r.status == PinStatus.pending_pin)).map (fun r => r.cid)

/-- Embedding of db_manager.get_cid_details (lines 211-219). -/
def get_cid_details (c : String) (db : Db) : Option (String × PinStatus × Nat) :=
  (db.pinned_cids.find? (fun r => r.cid == c)).map (fun r => (r.cid, r.status, r.retry_count))

/-- Embedding of db_manager.remove_cid_from_pinning (lines 221-229):
DELETE WHERE cid = c. -/
def remove_cid_from_pinning (c : String) (db : Db) : Db :=
  { db with pinned_cids := db.pinned_cids.filter (fun r => !(r.cid == c)) }

/-! Error-handling wrappers.  Every db_manager function wraps its body in
`try/except aiosqlite.Error`.  The `fault` flag models the store raising
such an error during the operation.  All functions except
initialize_database and set_active_miner_profile swallow the error and
return a safe default (the read functions return an empty list or `None`,
the write functions leave the store unchanged since the transaction never
commits); set_active_miner_profile logs and then RE-RAISES (db_manager.py
line 175), modelled by `Except.error`. -/

/-- Fault-aware get_cids_by_status: returns `[]` on a store error. -/
def get_cids_by_statusF (fault : Bool) (s : PinStatus) (db : Db) : List (String × Nat) :=
  if fault then [] else get_cids_by_status s db

/-- Fault-aware get_unpinnable_cids_to_report: returns `[]` on a store error. -/
def get_unpinnable_cids_to_reportF (fault : Bool) (db : Db) : List (String × String) :=
  if fault then [] else get_unpinnable_cids_to_report db

/-- Fault-aware get_active_miner_profile: returns `None` on a store error. -/
def get_active_miner_profileF (fault : Bool) (db : Db) : Option (String × Bool) :=
  if fault then none else get_active_miner_profile db

/-- Fault-aware get_all_pinned_cids_from_db: returns `[]` on a store error. -/
def get_all_pinned_cids_from_dbF (fault : Bool) (db : Db) : List String :=
  if fault then [] else get_all_pinned_cids_from_db db

/-- Fault-aware get_cid_details: returns `None` on a store error. -/
def get_cid_detailsF (fault : Bool) (c : String) (db : Db) : Option (String × PinStatus × Nat) :=
  if fault then none else get_cid_details c db

/-- Fault-aware add_cid_to_pin: leaves the store unchanged on a store error. -/
def add_cid_to_pinF (fault : Bool) (c : String) (db : Db) : Db :=
  if fault then db else add_cid_to_pin c db

/-- Fault-aware update_cid_status: leaves the store unchanged on a store error. -/
def update_cid_statusF (fault : Bool) (c : String) (s : PinStatus) (rc : Option Nat) (db : Db) : Db :=
  if fault then db else update_cid_status c s rc db

/-- Fault-aware add_unpinnable_cid: leaves the store unchanged on a store error. -/
def add_unpinnable_cidF (fault : Bool) (c reason : String) (db : Db) : Db :=
  if fault then db else add_unpinnable_cid c reason db

/-- Fault-aware mark_unpinnable_cids_as_reported: leaves the store
unchanged on a store error. -/
def mark_unpinnable_cids_as_reportedF (fault : Bool) (cids : List String) (db : Db) : Db :=
  if fault then db else mark_unpinnable_cids_as_reported cids db

/-- Fault-aware update_miner_profile_pinned_status: leaves the store
unchanged on a store error. -/
def update_miner_profile_pinned_statusF (fault : Bool) (c : String) (b : Bool) (db : Db) : Db :=
  if fault then db else update_miner_profile_pinned_status c b db

/-- Fault-aware remove_cid_from_pinning: leaves the store unchanged on a
store error. -/
def remove_cid_from_pinningF (fault : Bool) (c : String) (db : Db) : Db :=
  if fault then db else remove_cid_from_pinning c db

/-- Fault-aware set_active_miner_profile: unlike every other db_manager
function, its except-block ends in `raise` (db_manager.py line 175), so a
store error PROPAGATES to the caller. -/
def set_active_miner_profileF (fault : Bool) (oc : Option String) (db : Db) : Except Unit Db :=
  if fault then Except.error () else Except.ok (set_active_miner_profile oc db)

/-! Worker passes of src/miner_service.py.  The IPFS backend is abstracted
by oracles `pinOk`, `unpinOk : String → Bool` giving the boolean outcome of
ipfs_utils.pin_cid / unpin_cid for each CID (those helpers already fold the
"already pinned" / "not pinned" protocol answers into `true`, see
`unpin_cid_outcome` below). -/

/-- Loop body of miner_service.process_pending_pins (lines 196-210) for one
snapshot row `(cid, retry_count)`. -/
def pendingPinStep (maxRetries : Nat) (pinOk : String → Bool) (db : Db)
    (p : String × Nat) : Db :=
  if pinOk p.1 then update_cid_status p.1 .pinned none db
  else
    if maxRetries ≤ p.2 + 1 then
      add_unpinnable_cid p.1 ("Failed after " ++ toString (p.2 + 1) ++ " retries.")
        (remove_cid_from_pinning p.1 db)
    else update_cid_status p.1 .failed_pin (some (p.2 + 1)) db

/-- Embedding of miner_service.process_pending_pins (lines 188-210): fold
the loop body over the snapshot of 'pending_pin' rows. -/
def process_pending_pins (maxRetries : Nat) (pinOk : String → Bool) (db : Db) : Db :=
  (get_cids_by_status .pending_pin db).foldl (pendingPinStep maxRetries pinOk) db

/-- Loop body of miner_service.process_failed_pins (lines 222-242) for one
snapshot row: short-circuit to unpinnable when already at or past the
retry bound, otherwise re-attempt the pin. -/
def failedPinStep (maxRetries : Nat) (pinOk : String → Bool) (db : Db)
    (p : String × Nat) : Db :=
  if maxRetries ≤ p.2 then
    add_unpinnable_cid p.1
      ("Reached max retries (" ++ toString p.2 ++ ") in failed_pin state.")
      (remove_cid_from_pinning p.1 db)
  else if pinOk p.1 then update_cid_status p.1 .pinned none db
  else
    if maxRetries ≤ p.2 + 1 then
      add_unpinnable_cid p.1 ("Failed after " ++ toString (p.2 + 1) ++ " retries.")
        (remove_cid_from_pinning p.1 db)
    else update_cid_status p.1 .failed_pin (some (p.2 + 1)) db

/-- Embedding of miner_service.process_failed_pins (lines 212-242). -/
def process_failed_pins (maxRetries : Nat) (pinOk : String → Bool) (db : Db) : Db :=
  (get_cids_by_status .failed_pin db).foldl (failedPinStep maxRetries pinOk) db

/-- Loop body of miner_service.process_unpin_requests (lines 252-265):
delete the row on unpin success, otherwise set status failed_pin with no
retry-count change. -/
def unpinStep (unpinOk : String → Bool) (db : Db) (p : String × Nat) : Db :=
  if unpinOk p.1 then remove_cid_from_pinning p.1 db
  else update_cid_status p.1 .failed_pin none db

/-- Embedding of miner_service.process_unpin_requests (lines 244-265). -/
def process_unpin_requests (unpinOk : String → Bool) (db : Db) : Db :=
  (get_cids_by_status .unpin_requested db).foldl (unpinStep unpinOk) db

/-- Error body of an HTTP response from the IPFS daemon, as consumed by
ipfs_utils.unpin_cid: either a JSON object whose "Message" field is `msg`
(json.loads succeeded; a missing field is the empty string via
`.get("Message", "")`), or a non-JSON body. -/
inductive IpfsErrorBody
  | jsonMsg (msg : String)
  | nonJson (text : String)
deriving DecidableEq, Repr

/-- Tests whether `pat` occurs inside `s` (Python `in` on str). -/
def listHasSub : List Char → List Char → Bool
  | _, [] => true
  | [], _ :: _ => false
  | a :: as, b :: bs =>
    listStarts (a :: as) (b :: bs) || listHasSub as (b :: bs)

/-- String version of `listHasSub`. -/
def strHasSub (s pat : String) : Bool := listHasSub s.data pat.data

/-- Outcome classification of ipfs_utils.unpin_cid (lines 103-152) for a
response that arrived: HTTP 200 is success, and a JSON error whose
lower-cased Message contains "not pinned" is NORMALIZED to success;
everything else (including a non-JSON body) is failure.  The source also
tests "is not pinned", subsumed by "not pinned". -/
def unpin_cid_outcome (status : Nat) (body : IpfsErrorBody) : Bool :=
  if status == 200 then true
  else
    match body with
    | .jsonMsg msg =>
      strHasSub (asciiLower msg) "not pinned" || strHasSub (asciiLower msg) "is not pinned"
    | .nonJson _ => false

/-- March through miner_service.fetch_and_process_profile lines 144-186:
the new/changed-profile (or startup) path.  `oc` is the non-empty on-chain
profile CID, `content` the JSON list fetched from it (`none` when the
fetch or parse failed or the value is not a list; the empty list is falsy
in Python and also returns early), with each item giving its file_hash
array when it is a dict carrying one. -/
def fullSync (oc : String) (pinOk : String → Bool)
    (content : Option (List (Option (List Nat)))) (currentCid : Option String)
    (db : Db) : Db :=
  let db1 := set_active_miner_profile (some oc) db
  if pinOk oc then
    let db2 := update_cid_status oc .pinned none (update_miner_profile_pinned_status oc true db1)
    match content with
    | none => db2
    | some items =>
      if items.isEmpty then db2
      else
        let cidsFromProfile :=
          (items.filterMap (fun it => it.bind decode_profile_file_hash_to_cid)).dedup
        let tuples := get_cids_by_status .pinned db2 ++ get_cids_by_status .pending_pin db2
          ++ get_cids_by_status .failed_pin db2
        let managed0 := ((tuples.map Prod.fst).filter (fun x => !(x == oc))).dedup
        let managed := match currentCid with
          | some old => if !(old == "") && !(old == oc) then managed0.filter (fun x => !(x == old))
                        else managed0
          | none => managed0
        let toAdd := cidsFromProfile.filter (fun x => !(managed.contains x))
        let toRem := managed.filter (fun x => !(cidsFromProfile.contains x))
        let db3 := toAdd.foldl (fun d c => add_cid_to_pin c d) db2
        toRem.foldl (fun d c => update_cid_status c .unpin_requested none d) db3
  else
    update_cid_status oc .failed_pin (some 1) (update_miner_profile_pinned_status oc false db1)

/-- Embedding of miner_service.fetch_and_process_profile (lines 106-186).
The on-chain query result is the parameter `onChain` (`none` or an empty
string are both falsy at line 120); the guard on MY_IPFS_NODE_ID is outside
the model (the orchestrator only calls this with the identity resolved). -/
def fetch_and_process_profile (onChain : Option String) (pinOk : String → Bool)
    (content : Option (List (Option (List Nat)))) (is_startup : Bool) (db : Db) : Db :=
  let currentInfo := get_active_miner_profile db
  let currentCid : Option String := currentInfo.map Prod.fst
  let ocOpt : Option String := match onChain with
    | none => none
    | some s => if s = "" then none else some s
  match ocOpt with
  | none =>
    match currentCid with
    | none => db
    | some cur =>
      if cur = "" then db
      else
        let db1 := set_active_miner_profile none db
        let snapshot := get_cids_by_status .pinned db1 ++ get_cids_by_status .pending_pin db1
          ++ get_cids_by_status .failed_pin db1
        snapshot.foldl (fun d p => update_cid_status p.1 .unpin_requested none d) db1
  | some oc =>
    if currentCid = some oc ∧ is_startup = false then
      match currentInfo with
      | some info =>
        if info.2 = false then
          if pinOk oc then
            update_cid_status oc .pinned none (update_miner_profile_pinned_status oc true db)
          else db
        else db
      | none => db
    else fullSync oc pinOk content currentCid db

/-- Entry of the unpinnable-CIDs report document. -/
structure ReportEntry where
  cid : String
  reason : String
  reported_at : Nat
deriving DecidableEq, Repr

/-- Parsed state of the unpinnable-CIDs report file: a JSON list of
entries, some other JSON value (not a list), or an unreadable/corrupt
file.  A missing file is `Option.none` at the use site. -/
inductive ReportContent
  | jsonList (l : List ReportEntry)
  | jsonNonList
  | unreadable
deriving DecidableEq, Repr

/-- Loop body of miner_service.report_unpinnable_cids lines 341-345:
append an entry unless one with the same CID is already present, and
always record the CID for the store update. -/
def reportStep (now : Nat) (acc : List ReportEntry × List String)
    (p : String × String) : List ReportEntry × List String :=
  (if acc.1.any (fun e => e.cid == p.1) then acc.1 else acc.1 ++ [⟨p.1, p.2, now⟩],
   acc.2 ++ [p.1])

/-- Starting document of report_unpinnable_cids (lines 323-338): the
existing file's entries when it exists and parses to a list, the empty
sequence for a missing, unreadable, corrupt, or non-list file. -/
def reportStart : Option ReportContent → List ReportEntry
  | some (.jsonList l) => l
  | _ => []

/-- Embedding of miner_service.report_unpinnable_cids (lines 316-354).
`file` is the current report file (`none` when it does not exist), `now`
the wall-clock stamp for new entries.  The final write is assumed to
succeed (on a write error the source leaves the store unmarked; no claim
depends on that path).  Returns the new file content and store. -/
def report_unpinnable_cids (now : Nat) (file : Option ReportContent) (db : Db) :
    Option ReportContent × Db :=
  if (get_unpinnable_cids_to_report db).isEmpty then (file, db)
  else
    (some (.jsonList ((get_unpinnable_cids_to_report db).foldl (reportStep now)
        (reportStart file, [])).1),
     mark_unpinnable_cids_as_reported
       ((get_unpinnable_cids_to_report db).foldl (reportStep now) (reportStart file, [])).2 db)

/-- Number of entries for a given CID in the report document (0 for a
missing or non-list file). -/
def reportCount (c : String) : Option ReportContent → Nat
  | some (.jsonList l) => l.countP (fun e => e.cid == c)
  | _ => 0

/-! Store-operation algebra for the single-active-profile invariant: every
db_manager call that mutates the store, as one inductive of operations. -/

/-- One mutating db_manager call. -/
inductive StoreOp
  | addCid (c : String)
  | updStatus (c : String) (s : PinStatus) (rc : Option Nat)
  | addUnpinnable (c reason : String)
  | markReported (cids : List String)
  | setActive (oc : Option String)
  | updProfilePinned (c : String) (b : Bool)
  | removeCid (c : String)
deriving Repr

/-- Interpretation of a store operation. -/
def applyOp : StoreOp → Db → Db
  | .addCid c, db => add_cid_to_pin c db
  | .updStatus c s rc, db => update_cid_status c s rc db
  | .addUnpinnable c reason, db => add_unpinnable_cid c reason db
  | .markReported cids, db => mark_unpinnable_cids_as_reported cids db
  | .setActive oc, db => set_active_miner_profile oc db
  | .updProfilePinned c b, db => update_miner_profile_pinned_status c b db
  | .removeCid c, db => remove_cid_from_pinning c db

/-- Interpretation of a sequence of store operations. -/
def applyOps (ops : List StoreOp) (db : Db) : Db :=
  ops.foldl (fun d o => applyOp o d) db

/-- Number of miner_profile rows with is_active = TRUE. -/
def activeCount (db : Db) : Nat := db.miner_profile.countP (fun p => p.is_active)

/-- Table invariant backing C1: at most one active profile row, and the
profile_cid column is unique (the UNIQUE constraint of the schema). -/
def profileInv (db : Db) : Prop :=
  activeCount db ≤ 1 ∧ (profileKeys db).Nodup

/-- Rows of pinned_cids whose key is `c` (view used by the frame lemmas). -/
def pinnedRowsFor (c : String) (db : Db) : List PinRecord :=
  db.pinned_cids.filter (fun r => r.cid == c)

/-- Rows of unpinnable_cids whose key is `c` (view used by the frame
lemmas). -/
def unpRowsFor (c : String) (db : Db) : List UnpinnableRecord :=
  db.unpinnable_cids.filter (fun u => u.cid == c)

/-! Generic list helpers used by several proofs. -/

/-- Helper: a fold preserves a predicate that is preserved by every step
taken on a member of the list. -/
theorem foldl_preserve {α β : Type} (P : β → Prop) (f : β → α → β) :
    ∀ (l : List α) (b : β), P b → (∀ b' a, a ∈ l → P b' → P (f b' a)) → P (l.foldl f b)
  | [], _, hb, _ => hb
  | a :: l, b, hb, hstep =>
    foldl_preserve P f l (f b a) (hstep b a (List.mem_cons_self a l) hb)
      (fun b' x hx hb' => hstep b' x (List.mem_cons_of_mem a hx) hb')

/-- Helper: filtering after a map that preserves the predicate and is the
identity on elements satisfying it leaves the filter unchanged. -/
theorem filter_map_id {α : Type} (g : α → α) (p : α → Bool)
    (hp : ∀ x, p (g x) = p x) (hid : ∀ x, p x = true → g x = x) :
    ∀ l : List α, (l.map g).filter p = l.filter p
  | [] => rfl
  | x :: l => by
    cases hx : p x with
    | false =>
      have hgx : p (g x) = false := by rw [hp x, hx]
      simp only [List.map_cons, List.filter_cons, hx, hgx]
      exact filter_map_id g p hp hid l
    | true =>
      have hgx : p (g x) = true := by rw [hp x, hx]
      simp only [List.map_cons, List.filter_cons, hx, hgx, if_true, hid x hx]
      rw [filter_map_id g p hp hid l]

/-- Helper: filter commutes with a map that preserves the predicate. -/
theorem filter_map_comm {α : Type} (g : α → α) (p : α → Bool)
    (hp : ∀ x, p (g x) = p x) :
    ∀ l : List α, (l.map g).filter p = (l.filter p).map g
  | [] => rfl
  | x :: l => by
    cases hx : p x with
    | false =>
      have hgx : p (g x) = false := by rw [hp x, hx]
      simp only [List.map_cons, List.filter_cons, hx, hgx]
      exact filter_map_comm g p hp l
    | true =>
      have hgx : p (g x) = true := by rw [hp x, hx]
      simp only [List.map_cons, List.filter_cons, hx, hgx, if_true]
      rw [filter_map_comm g p hp l]

/-- Helper: a map that preserves a projection leaves the projected list
unchanged. -/
theorem map_map_of_pres {α β : Type} (g : α → α) (f : α → β) (h : ∀ x, f (g x) = f x) :
    ∀ l : List α, (l.map g).map f = l.map f
  | [] => rfl
  | x :: l => by simp only [List.map_cons, h x, map_map_of_pres g f h l]

/-- Helper: counting after a map is counting the composed predicate. -/
theorem countP_map_comp {α : Type} (g : α → α) (p : α → Bool) :
    ∀ l : List α, (l.map g).countP p = l.countP (fun x => p (g x))
  | [] => rfl
  | x :: l => by
    simp only [List.map_cons, List.countP_cons, countP_map_comp g p l]

/-- Helper: with distinct keys, at most one element matches a given key. -/
theorem countP_key_le_one {α β : Type} [BEq β] [LawfulBEq β] (f : α → β) (c : β) :
    ∀ l : List α, ((l.map f).Nodup) → l.countP (fun x => f x == c) ≤ 1
  | [], _ => by simp
  | x :: l, hnd => by
    have hnd2 := hnd
    rw [List.map_cons, List.nodup_cons] at hnd2
    cases hx : (f x == c) with
    | false =>
      simp only [List.countP_cons, hx, Bool.false_eq_true, if_false, Nat.add_zero]
      exact countP_key_le_one f c l hnd2.2
    | true =>
      have hc : f x = c := by simpa using hx
      have hzero : l.countP (fun y => f y == c) = 0 := by
        apply List.countP_eq_zero.mpr
        intro y hy hyc
        exact hnd2.1 (hc ▸ (by simpa using hyc) ▸ List.mem_map_of_mem f hy)
      simp [List.countP_cons, hx, hzero]

/-! Theorems for the claims, and their supporting lemmas. -/

/-- Helper: a deactivated profile row is inactive. -/
theorem deactRow_inactive (p : ProfileRecord) : (deactRow p).is_active = false := by
  unfold deactRow
  cases hp : p.is_active <;> simp [hp]

/-- Helper: deactivation keeps the profile_cid column. -/
theorem deactRow_key (p : ProfileRecord) : (deactRow p).profile_cid = p.profile_cid := by
  unfold deactRow
  cases hp : p.is_active <;> simp [hp]

/-- Helper: the deactivation pass leaves no active row. -/
theorem countP_deact (l : List ProfileRecord) :
    (l.map deactRow).countP (fun p => p.is_active) = 0 := by
  rw [countP_map_comp]
  apply List.countP_eq_zero.mpr
  intro p _ hp
  rw [deactRow_inactive p] at hp
  cases hp

/-- Helper: the deactivation pass keeps the key column. -/
theorem deact_keys (l : List ProfileRecord) :
    (l.map deactRow).map (fun p => p.profile_cid) = l.map (fun p => p.profile_cid) :=
  map_map_of_pres deactRow (fun p => p.profile_cid) deactRow_key l

/-- Helper: the upsert leaves at most one active row when fed an
all-inactive table with distinct keys. -/
theorem upsertActive_count (c : String) (profs : List ProfileRecord)
    (hinact : ∀ p ∈ profs, p.is_active = false)
    (hnd : (profs.map (fun p => p.profile_cid)).Nodup) :
    (upsertActive c profs).countP (fun p => p.is_active) ≤ 1 := by
  unfold upsertActive
  by_cases hany : (profs.any (fun p => p.profile_cid == c)) = true
  · rw [if_pos hany, countP_map_comp]
    have hle : profs.countP (fun p => (if p.profile_cid == c then
        { p with is_active := true, pinned_locally := false } else p).is_active)
        ≤ profs.countP (fun p => p.profile_cid == c) := by
      apply List.countP_mono_left
      intro p hp hact
      by_cases hpc : (p.profile_cid == c) = true
      · exact hpc
      · rw [if_neg hpc, hinact p hp] at hact
        cases hact
    exact le_trans hle (countP_key_le_one (fun p => p.profile_cid) c profs hnd)
  · rw [if_neg hany, List.countP_append]
    have h0 : profs.countP (fun p => p.is_active) = 0 :=
      List.countP_eq_zero.mpr (fun p hp hact => by rw [hinact p hp] at hact; cases hact)
    rw [h0]
    simp

/-- Helper: the upsert keeps the key column free of duplicates. -/
theorem upsertActive_keys_nodup (c : String) (profs : List ProfileRecord)
    (hnd : (profs.map (fun p => p.profile_cid)).Nodup) :
    ((upsertActive c profs).map (fun p => p.profile_cid)).Nodup := by
  unfold upsertActive
  by_cases hany : (profs.any (fun p => p.profile_cid == c)) = true
  · rw [if_pos hany]
    have hmm := map_map_of_pres
      (fun p : ProfileRecord => if p.profile_cid == c then
        { p with is_active := true, pinned_locally := false } else p)
      (fun p => p.profile_cid)
      (fun p => by by_cases hpc : (p.profile_cid == c) = true <;> simp [hpc]) profs
    rw [hmm]
    exact hnd
  · rw [if_neg hany, List.map_append, List.nodup_append]
    refine ⟨hnd, by simp, ?_⟩
    intro a ha hb
    simp only [List.map_cons, List.map_nil, List.mem_singleton] at hb
    rcases List.mem_map.mp ha with ⟨q, hq, hqa⟩
    have hnc : ¬(q.profile_cid == c) = true :=
      fun hqc => hany (List.any_eq_true.mpr ⟨q, hq, hqc⟩)
    exact hnc (by simp [hqa, hb])

/-- Helper: set_active_miner_profile re-establishes the profile-table
invariant from the key-uniqueness half alone: whatever the prior number of
active rows, afterwards at most one row is active. -/
theorem setActive_profileInv (oc : Option String) (db : Db)
    (hnd : (profileKeys db).Nodup) :
    profileInv (set_active_miner_profile oc db) := by
  have hinact : ∀ p ∈ db.miner_profile.map deactRow, p.is_active = false := by
    intro p hp
    rcases List.mem_map.mp hp with ⟨q, _, hq⟩
    rw [← hq]
    exact deactRow_inactive q
  have hdk : ((db.miner_profile.map deactRow).map (fun p => p.profile_cid)).Nodup := by
    rw [deact_keys]
    exact hnd
  have h1 : (db.miner_profile.map deactRow).countP (fun p => p.is_active) ≤ 1 := by
    rw [countP_deact]
    exact Nat.zero_le 1
  cases oc with
  | none => exact ⟨h1, hdk⟩
  | some c =>
    by_cases hc : c = ""
    · rw [show set_active_miner_profile (some c) db
          = { db with miner_profile := db.miner_profile.map deactRow } from by
            simp [set_active_miner_profile, hc]]
      exact ⟨h1, hdk⟩
    · rw [show set_active_miner_profile (some c) db
          = add_cid_to_pin c
              { db with miner_profile := upsertActive c (db.miner_profile.map deactRow) } from by
            simp [set_active_miner_profile, hc]]
      exact ⟨upsertActive_count c _ hinact hdk, upsertActive_keys_nodup c _ hdk⟩

/-- Helper: a store whose miner_profile table agrees with an invariant
store also satisfies the invariant. -/
theorem profileInv_of_same_profile {d1 d2 : Db} (h : d2.miner_profile = d1.miner_profile)
    (h1 : profileInv d1) : profileInv d2 := by
  unfold profileInv activeCount profileKeys at h1 ⊢
  rw [h]
  exact h1

/-- Helper: mark_unpinnable_cids_as_reported does not touch miner_profile. -/
theorem mark_unpinnable_profile (cids : List String) (db : Db) :
    (mark_unpinnable_cids_as_reported cids db).miner_profile = db.miner_profile := by
  unfold mark_unpinnable_cids_as_reported
  split <;> rfl

/-- Helper: every store operation preserves the profile-table invariant. -/
theorem applyOp_profileInv (op : StoreOp) (db : Db) (h : profileInv db) :
    profileInv (applyOp op db) := by
  cases op with
  | setActive oc => exact setActive_profileInv oc db h.2
  | addCid c => exact profileInv_of_same_profile rfl h
  | updStatus c s rc => exact profileInv_of_same_profile rfl h
  | addUnpinnable c r => exact profileInv_of_same_profile rfl h
  | markReported cids => exact profileInv_of_same_profile (mark_unpinnable_profile cids db) h
  | removeCid c => exact profileInv_of_same_profile rfl h
  | updProfilePinned c b =>
    refine ⟨?_, ?_⟩
    · show (db.miner_profile.map (fun p => if p.profile_cid == c && p.is_active then
        { p with pinned_locally := b } else p)).countP (fun p => p.is_active) ≤ 1
      rw [countP_map_comp]
      have heq : db.miner_profile.countP (fun p =>
          (if p.profile_cid == c && p.is_active then
            { p with pinned_locally := b } else p).is_active)
          = db.miner_profile.countP (fun p => p.is_active) := by
        apply List.countP_congr
        intro p _
        by_cases hp : (p.profile_cid == c && p.is_active) = true <;> simp [hp]
      rw [heq]
      exact h.1
    · show ((db.miner_profile.map (fun p => if p.profile_cid == c && p.is_active then
        { p with pinned_locally := b } else p)).map (fun p => p.profile_cid)).Nodup
      have hmm := map_map_of_pres
        (fun p : ProfileRecord => if p.profile_cid == c && p.is_active then
          { p with pinned_locally := b } else p)
        (fun p => p.profile_cid)
        (fun p => by by_cases hp : (p.profile_cid == c && p.is_active) = true <;> simp [hp])
        db.miner_profile
      rw [hmm]
      exact h.2

/-- Helper: a sequence of store operations preserves the invariant. -/
theorem applyOps_profileInv (ops : List StoreOp) (db : Db) (h : profileInv db) :
    profileInv (applyOps ops db) :=
  foldl_preserve profileInv (fun d o => applyOp o d) ops db h
    (fun d op _ hd => applyOp_profileInv op d hd)

/-- C1: with the schema's unique profile_cid column, after any sequence of
store operations — in particular any sequence of set_active_miner_profile
calls with a CID or with none — the miner_profile table contains at most
one row with is_active = true; every store operation preserves this. -/
theorem c1_single_active_profile (ops : List StoreOp) (db : Db) (h : profileInv db) :
    activeCount (applyOps ops db) ≤ 1 ∧ profileInv (applyOps ops db) :=
  ⟨(applyOps_profileInv ops db h).1, applyOps_profileInv ops db h⟩

/-- Witness for C1 on a concrete operation sequence from the empty store. -/
theorem c1_witness :
    profileInv emptyDb
    ∧ activeCount (applyOps
        [StoreOp.setActive (some "QmA"), StoreOp.setActive (some "QmB"),
         StoreOp.updProfilePinned "QmB" true, StoreOp.setActive none,
         StoreOp.setActive (some "QmA")] emptyDb) ≤ 1 :=
  ⟨⟨by decide, by decide⟩,
   (c1_single_active_profile _ emptyDb ⟨by decide, by decide⟩).1⟩

/-- Helper: pointwise-equal functions give equal maps. -/
theorem map_congr_mem {α β : Type} (f g : α → β) :
    ∀ l : List α, (∀ x ∈ l, f x = g x) → l.map f = l.map g
  | [], _ => rfl
  | x :: l, h => by
    simp only [List.map_cons, h x (List.mem_cons_self x l)]
    rw [map_congr_mem f g l (fun y hy => h y (List.mem_cons_of_mem x hy))]

/-- Helper: disequality gives a false boolean equality test. -/
theorem beq_false_of_ne {α : Type} [BEq α] [LawfulBEq α] {a b : α} (h : a ≠ b) :
    (a == b) = false := by
  cases hab : a == b with
  | false => rfl
  | true => exact absurd (eq_of_beq hab) h

/-- Helper: filtering for a property after removing everything with it
gives nothing. -/
theorem filter_filter_neg {α : Type} (p : α → Bool) :
    ∀ l : List α, (l.filter (fun x => !(p x))).filter p = []
  | [] => rfl
  | x :: l => by
    cases hx : p x with
    | true => simp [List.filter_cons, hx, filter_filter_neg p l]
    | false => simp [List.filter_cons, hx, filter_filter_neg p l]

/-- Helper: a pre-filter that keeps everything with the property does not
change the filter. -/
theorem filter_filter_other {α : Type} (p q : α → Bool)
    (himp : ∀ x, p x = true → q x = true) :
    ∀ l : List α, (l.filter q).filter p = l.filter p
  | [] => rfl
  | x :: l => by
    cases hq : q x with
    | true =>
      cases hp : p x <;>
        simp [List.filter_cons, hq, hp, filter_filter_other p q himp l]
    | false =>
      have hp : p x = false := by
        cases hpx : p x with
        | false => rfl
        | true => rw [himp x hpx] at hq; cases hq
      simp [List.filter_cons, hq, hp, filter_filter_other p q himp l]

/-- Helper: updating another CID leaves the rows for `c` unchanged. -/
theorem pinnedRowsFor_update_ne (c cc : String) (s : PinStatus) (rc : Option Nat)
    (db : Db) (h : cc ≠ c) :
    pinnedRowsFor c (update_cid_status cc s rc db) = pinnedRowsFor c db := by
  unfold pinnedRowsFor update_cid_status
  apply filter_map_id
  · intro x
    by_cases hx : (x.cid == cc) = true
    · cases rc <;> simp [hx]
    · simp [hx]
  · intro x hx
    have hf : (x.cid == cc) = false := by
      have hxc : x.cid = c := by simpa using hx
      rw [hxc]
      exact beq_false_of_ne (fun hcc => h hcc.symm)
    simp [hf]

/-- Helper: updating `c` maps exactly the rows for `c` by the update. -/
theorem pinnedRowsFor_update_self (c : String) (s : PinStatus) (rc : Option Nat) (db : Db) :
    pinnedRowsFor c (update_cid_status c s rc db)
      = (pinnedRowsFor c db).map (fun r =>
          match rc with
          | some n => { r with status := s, retry_count := n }
          | none => { r with status := s }) := by
  unfold pinnedRowsFor update_cid_status
  rw [filter_map_comm _ _ (fun x => by
    by_cases hx : (x.cid == c) = true
    · cases rc <;> simp [hx]
    · simp [hx])]
  apply map_congr_mem
  intro x hx
  have hxc : (x.cid == c) = true := by
    have := List.of_mem_filter hx
    simpa using this
  rw [if_pos hxc]

/-- Helper: removing `c` deletes all its rows. -/
theorem pinnedRowsFor_remove_self (c : String) (db : Db) :
    pinnedRowsFor c (remove_cid_from_pinning c db) = [] := by
  unfold pinnedRowsFor remove_cid_from_pinning
  exact filter_filter_neg (fun r => r.cid == c) db.pinned_cids

/-- Helper: removing another CID leaves the rows for `c` unchanged. -/
theorem pinnedRowsFor_remove_ne (c cc : String) (db : Db) (h : cc ≠ c) :
    pinnedRowsFor c (remove_cid_from_pinning cc db) = pinnedRowsFor c db := by
  unfold pinnedRowsFor remove_cid_from_pinning
  apply filter_filter_other
  intro x hx
  have hxc : x.cid = c := by simpa using hx
  simp [hxc, beq_false_of_ne (fun hcc => h hcc.symm)]

/-- Helper: upserting an unpinnable row for `c` makes its rows exactly
that fresh unreported row. -/
theorem unpRowsFor_addUnp_self (c reason : String) (db : Db) :
    unpRowsFor c (add_unpinnable_cid c reason db) = [⟨c, reason, false⟩] := by
  unfold unpRowsFor add_unpinnable_cid
  rw [List.filter_append, filter_filter_neg (fun u => u.cid == c) db.unpinnable_cids]
  simp

/-- Helper: upserting an unpinnable row for another CID leaves the rows
for `c` unchanged. -/
theorem unpRowsFor_addUnp_ne (c cc reason : String) (db : Db) (h : cc ≠ c) :
    unpRowsFor c (add_unpinnable_cid cc reason db) = unpRowsFor c db := by
  unfold unpRowsFor add_unpinnable_cid
  rw [List.filter_append]
  have hff := filter_filter_other (fun u : UnpinnableRecord => u.cid == c)
    (fun u : UnpinnableRecord => !(u.cid == cc)) (fun x hx => by
      have hxc : x.cid = c := by simpa using hx
      simp [hxc, beq_false_of_ne (fun hcc => h hcc.symm)]) db.unpinnable_cids
  rw [hff]
  simp [beq_false_of_ne h]

/-- Helper: an empty row view for `c` means `c` is not a key of
pinned_cids. -/
theorem not_mem_keys_of_rowsFor_nil (c : String) (db : Db)
    (h : pinnedRowsFor c db = []) : c ∉ pinnedKeys db := by
  intro hc
  rcases List.mem_map.mp hc with ⟨r, hr, hrc⟩
  have hmem : r ∈ pinnedRowsFor c db := List.mem_filter.mpr ⟨hr, by simp [hrc]⟩
  rw [h] at hmem
  cases hmem

/-- Helper: a singleton row view exhibits a member of unpinnable_cids. -/
theorem mem_of_unpRowsFor (c : String) (db : Db) (e : UnpinnableRecord)
    (h : unpRowsFor c db = [e]) : e ∈ db.unpinnable_cids := by
  have hmem : e ∈ unpRowsFor c db := by
    rw [h]
    exact List.mem_cons_self e []
  exact List.mem_of_mem_filter hmem

/-- Helper: a fold whose steps all concern other CIDs leaves the views
for `c` unchanged. -/
theorem fold_frame (step : Db → (String × Nat) → Db) (c : String)
    (hframe : ∀ d p, p.1 ≠ c →
      pinnedRowsFor c (step d p) = pinnedRowsFor c d
      ∧ unpRowsFor c (step d p) = unpRowsFor c d) :
    ∀ (l : List (String × Nat)) (d : Db), (∀ p ∈ l, p.1 ≠ c) →
      pinnedRowsFor c (l.foldl step d) = pinnedRowsFor c d
      ∧ unpRowsFor c (l.foldl step d) = unpRowsFor c d
  | [], _, _ => ⟨rfl, rfl⟩
  | p :: l, d, hl => by
    have h1 := hframe d p (hl p (List.mem_cons_self p l))
    have h2 := fold_frame step c hframe l (step d p)
      (fun q hq => hl q (List.mem_cons_of_mem p hq))
    exact ⟨h2.1.trans h1.1, h2.2.trans h1.2⟩

/-- Helper: a fold over a snapshot containing exactly one entry for `c`
behaves, on the views for `c`, like the single step for `c` applied to a
store with the original views. -/
theorem fold_one_hit (step : Db → (String × Nat) → Db) (c : String)
    (hframe : ∀ d p, p.1 ≠ c →
      pinnedRowsFor c (step d p) = pinnedRowsFor c d
      ∧ unpRowsFor c (step d p) = unpRowsFor c d)
    (l l1 l2 : List (String × Nat)) (k : Nat) (d : Db)
    (hsplit : l = l1 ++ (c, k) :: l2)
    (h1 : ∀ p ∈ l1, p.1 ≠ c) (h2 : ∀ p ∈ l2, p.1 ≠ c) :
    ∃ dmid, pinnedRowsFor c dmid = pinnedRowsFor c d
      ∧ unpRowsFor c dmid = unpRowsFor c d
      ∧ pinnedRowsFor c (l.foldl step d) = pinnedRowsFor c (step dmid (c, k))
      ∧ unpRowsFor c (l.foldl step d) = unpRowsFor c (step dmid (c, k)) := by
  refine ⟨l1.foldl step d, (fold_frame step c hframe l1 d h1).1,
    (fold_frame step c hframe l1 d h1).2, ?_, ?_⟩
  · rw [hsplit, List.foldl_append, List.foldl_cons]
    exact (fold_frame step c hframe l2 _ h2).1
  · rw [hsplit, List.foldl_append, List.foldl_cons]
    exact (fold_frame step c hframe l2 _ h2).2

/-- Helper: a pinned_cids row yields its snapshot entry. -/
theorem get_cids_mem (s : PinStatus) (db : Db) (r : PinRecord)
    (hr : r ∈ db.pinned_cids) (hs : r.status = s) :
    (r.cid, r.retry_count) ∈ get_cids_by_status s db := by
  unfold get_cids_by_status
  exact List.mem_map_of_mem _ (List.mem_filter.mpr ⟨hr, by simp [hs]⟩)

/-- Helper: with distinct keys the snapshot's CID column is duplicate
free. -/
theorem get_cids_fst_nodup (s : PinStatus) (db : Db) (hnd : (pinnedKeys db).Nodup) :
    ((get_cids_by_status s db).map Prod.fst).Nodup := by
  unfold get_cids_by_status
  rw [List.map_map]
  have hsub : (db.pinned_cids.filter (fun r => r.status == s)).Sublist db.pinned_cids :=
    List.filter_sublist _
  have hmap := hsub.map (fun r => r.cid)
  exact List.Nodup.sublist hmap hnd

/-- Helper: the snapshot for a row's own status splits around that row's
entry, with no other entry carrying its CID. -/
theorem snapshot_split (s : PinStatus) (db : Db) (r : PinRecord)
    (hnd : (pinnedKeys db).Nodup) (hr : r ∈ db.pinned_cids) (hs : r.status = s) :
    ∃ l1 l2, get_cids_by_status s db = l1 ++ (r.cid, r.retry_count) :: l2
      ∧ (∀ p ∈ l1, p.1 ≠ r.cid) ∧ (∀ p ∈ l2, p.1 ≠ r.cid) := by
  rcases List.append_of_mem (get_cids_mem s db r hr hs) with ⟨l1, l2, hsplit⟩
  have hnodup := get_cids_fst_nodup s db hnd
  rw [hsplit, List.map_append, List.map_cons, List.nodup_append] at hnodup
  obtain ⟨hn1, hn2, hdisj⟩ := hnodup
  rw [List.nodup_cons] at hn2
  refine ⟨l1, l2, hsplit, ?_, ?_⟩
  · intro p hp hpc
    have hm : r.cid ∈ l1.map Prod.fst := by
      rw [← hpc]
      exact List.mem_map_of_mem Prod.fst hp
    exact hdisj hm (List.mem_cons_self _ _)
  · intro p hp hpc
    have hm : r.cid ∈ l2.map Prod.fst := by
      rw [← hpc]
      exact List.mem_map_of_mem Prod.fst hp
    exact hn2.1 hm

/-- Helper: the pending-pin loop body leaves other CIDs' views unchanged. -/
theorem pendingPinStep_frame (maxR : Nat) (pinOk : String → Bool) (c : String)
    (d : Db) (p : String × Nat) (h : p.1 ≠ c) :
    pinnedRowsFor c (pendingPinStep maxR pinOk d p) = pinnedRowsFor c d
    ∧ unpRowsFor c (pendingPinStep maxR pinOk d p) = unpRowsFor c d := by
  unfold pendingPinStep
  by_cases h1 : (pinOk p.1) = true
  · rw [if_pos h1]
    exact ⟨pinnedRowsFor_update_ne c p.1 _ _ d h, rfl⟩
  · rw [if_neg h1]
    by_cases h2 : maxR ≤ p.2 + 1
    · rw [if_pos h2]
      refine ⟨?_, ?_⟩
      · exact pinnedRowsFor_remove_ne c p.1 d h
      · exact unpRowsFor_addUnp_ne c p.1 _ (remove_cid_from_pinning p.1 d) h
    · rw [if_neg h2]
      exact ⟨pinnedRowsFor_update_ne c p.1 _ _ d h, rfl⟩

/-- Helper: the failed-pin loop body leaves other CIDs' views unchanged. -/
theorem failedPinStep_frame (maxR : Nat) (pinOk : String → Bool) (c : String)
    (d : Db) (p : String × Nat) (h : p.1 ≠ c) :
    pinnedRowsFor c (failedPinStep maxR pinOk d p) = pinnedRowsFor c d
    ∧ unpRowsFor c (failedPinStep maxR pinOk d p) = unpRowsFor c d := by
  unfold failedPinStep
  by_cases h0 : maxR ≤ p.2
  · rw [if_pos h0]
    refine ⟨?_, ?_⟩
    · exact pinnedRowsFor_remove_ne c p.1 d h
    · exact unpRowsFor_addUnp_ne c p.1 _ (remove_cid_from_pinning p.1 d) h
  · rw [if_neg h0]
    by_cases h1 : (pinOk p.1) = true
    · rw [if_pos h1]
      exact ⟨pinnedRowsFor_update_ne c p.1 _ _ d h, rfl⟩
    · rw [if_neg h1]
      by_cases h2 : maxR ≤ p.2 + 1
      · rw [if_pos h2]
        refine ⟨?_, ?_⟩
        · exact pinnedRowsFor_remove_ne c p.1 d h
        · exact unpRowsFor_addUnp_ne c p.1 _ (remove_cid_from_pinning p.1 d) h
      · rw [if_neg h2]
        exact ⟨pinnedRowsFor_update_ne c p.1 _ _ d h, rfl⟩

/-- Helper: the unpin loop body leaves other CIDs' views unchanged. -/
theorem unpinStep_frame (unpinOk : String → Bool) (c : String)
    (d : Db) (p : String × Nat) (h : p.1 ≠ c) :
    pinnedRowsFor c (unpinStep unpinOk d p) = pinnedRowsFor c d
    ∧ unpRowsFor c (unpinStep unpinOk d p) = unpRowsFor c d := by
  unfold unpinStep
  by_cases h1 : (unpinOk p.1) = true
  · rw [if_pos h1]
    exact ⟨pinnedRowsFor_remove_ne c p.1 d h, rfl⟩
  · rw [if_neg h1]
    exact ⟨pinnedRowsFor_update_ne c p.1 _ _ d h, rfl⟩

/-- Helper: a row of the store is in its own CID's view. -/
theorem mem_rowsFor_self (r : PinRecord) (db : Db) (hr : r ∈ db.pinned_cids) :
    r ∈ pinnedRowsFor r.cid db :=
  List.mem_filter.mpr ⟨hr, by simp⟩

/-- Helper: processing a pending_pin record whose pin attempt fails and
whose incremented retry count reaches the bound deletes it from
pinned_cids and upserts a fresh unreported unpinnable row. -/
theorem process_pending_exhausted (maxR : Nat) (pinOk : String → Bool) (db : Db)
    (r : PinRecord) (hnd : (pinnedKeys db).Nodup) (hr : r ∈ db.pinned_cids)
    (hst : r.status = .pending_pin) (hfail : pinOk r.cid = false)
    (hmax : maxR ≤ r.retry_count + 1) :
    r.cid ∉ pinnedKeys (process_pending_pins maxR pinOk db)
    ∧ ∃ u ∈ (process_pending_pins maxR pinOk db).unpinnable_cids,
        u.cid = r.cid ∧ u.reported = false := by
  rcases snapshot_split .pending_pin db r hnd hr hst with ⟨l1, l2, hsplit, h1, h2⟩
  rcases fold_one_hit (pendingPinStep maxR pinOk) r.cid
      (fun d p hp => pendingPinStep_frame maxR pinOk r.cid d p hp)
      _ l1 l2 r.retry_count db hsplit h1 h2 with ⟨dmid, _, _, hpin, hunp⟩
  have hstep : pendingPinStep maxR pinOk dmid (r.cid, r.retry_count)
      = add_unpinnable_cid r.cid
          ("Failed after " ++ toString (r.retry_count + 1) ++ " retries.")
          (remove_cid_from_pinning r.cid dmid) := by
    unfold pendingPinStep
    rw [if_neg (by simp [hfail]), if_pos hmax]
  constructor
  · apply not_mem_keys_of_rowsFor_nil
    rw [show process_pending_pins maxR pinOk db
        = (get_cids_by_status .pending_pin db).foldl (pendingPinStep maxR pinOk) db from rfl,
      hpin, hstep]
    exact pinnedRowsFor_remove_self r.cid _
  · have hu : unpRowsFor r.cid (process_pending_pins maxR pinOk db)
        = [⟨r.cid, "Failed after " ++ toString (r.retry_count + 1) ++ " retries.", false⟩] := by
      rw [show process_pending_pins maxR pinOk db
          = (get_cids_by_status .pending_pin db).foldl (pendingPinStep maxR pinOk) db from rfl,
        hunp, hstep]
      exact unpRowsFor_addUnp_self r.cid _ _
    exact ⟨_, mem_of_unpRowsFor _ _ _ hu, rfl, rfl⟩

/-- Helper: processing a pending_pin record whose pin attempt fails with
the incremented retry count still below the bound leaves a failed_pin row
with the incremented count. -/
theorem process_pending_below (maxR : Nat) (pinOk : String → Bool) (db : Db)
    (r : PinRecord) (hnd : (pinnedKeys db).Nodup) (hr : r ∈ db.pinned_cids)
    (hst : r.status = .pending_pin) (hfail : pinOk r.cid = false)
    (hlt : r.retry_count + 1 < maxR) :
    ∃ r2 ∈ (process_pending_pins maxR pinOk db).pinned_cids,
      r2.cid = r.cid ∧ r2.status = .failed_pin ∧ r2.retry_count = r.retry_count + 1 := by
  rcases snapshot_split .pending_pin db r hnd hr hst with ⟨l1, l2, hsplit, h1, h2⟩
  rcases fold_one_hit (pendingPinStep maxR pinOk) r.cid
      (fun d p hp => pendingPinStep_frame maxR pinOk r.cid d p hp)
      _ l1 l2 r.retry_count db hsplit h1 h2 with ⟨dmid, hmid, _, hpin, _⟩
  have hstep : pendingPinStep maxR pinOk dmid (r.cid, r.retry_count)
      = update_cid_status r.cid .failed_pin (some (r.retry_count + 1)) dmid := by
    unfold pendingPinStep
    rw [if_neg (by simp [hfail]), if_neg (by omega)]
  have hrows : pinnedRowsFor r.cid (process_pending_pins maxR pinOk db)
      = (pinnedRowsFor r.cid db).map
          (fun x => { x with status := .failed_pin, retry_count := r.retry_count + 1 }) := by
    rw [show process_pending_pins maxR pinOk db
        = (get_cids_by_status .pending_pin db).foldl (pendingPinStep maxR pinOk) db from rfl,
      hpin, hstep, pinnedRowsFor_update_self, hmid]
  have hr2 : ({ r with status := .failed_pin, retry_count := r.retry_count + 1 } : PinRecord)
      ∈ pinnedRowsFor r.cid (process_pending_pins maxR pinOk db) := by
    rw [hrows]
    exact List.mem_map_of_mem _ (mem_rowsFor_self r db hr)
  exact ⟨_, List.mem_of_mem_filter hr2, rfl, rfl, rfl⟩

/-- Helper: processing a failed_pin record whose pin attempt fails (or is
short-circuited) with the retry bound reached deletes it and upserts a
fresh unreported unpinnable row. -/
theorem process_failed_exhausted (maxR : Nat) (pinOk : String → Bool) (db : Db)
    (r : PinRecord) (hnd : (pinnedKeys db).Nodup) (hr : r ∈ db.pinned_cids)
    (hst : r.status = .failed_pin) (hfail : pinOk r.cid = false)
    (hmax : maxR ≤ r.retry_count + 1) :
    r.cid ∉ pinnedKeys (process_failed_pins maxR pinOk db)
    ∧ ∃ u ∈ (process_failed_pins maxR pinOk db).unpinnable_cids,
        u.cid = r.cid ∧ u.reported = false := by
  rcases snapshot_split .failed_pin db r hnd hr hst with ⟨l1, l2, hsplit, h1, h2⟩
  rcases fold_one_hit (failedPinStep maxR pinOk) r.cid
      (fun d p hp => failedPinStep_frame maxR pinOk r.cid d p hp)
      _ l1 l2 r.retry_count db hsplit h1 h2 with ⟨dmid, _, _, hpin, hunp⟩
  by_cases h0 : maxR ≤ r.retry_count
  · have hstep : failedPinStep maxR pinOk dmid (r.cid, r.retry_count)
        = add_unpinnable_cid r.cid
            ("Reached max retries (" ++ toString r.retry_count ++ ") in failed_pin state.")
            (remove_cid_from_pinning r.cid dmid) := by
      unfold failedPinStep
      rw [if_pos h0]
    constructor
    · apply not_mem_keys_of_rowsFor_nil
      rw [show process_failed_pins maxR pinOk db
          = (get_cids_by_status .failed_pin db).foldl (failedPinStep maxR pinOk) db from rfl,
        hpin, hstep]
      exact pinnedRowsFor_remove_self r.cid _
    · have hu : unpRowsFor r.cid (process_failed_pins maxR pinOk db)
          = [⟨r.cid,
              "Reached max retries (" ++ toString r.retry_count ++ ") in failed_pin state.",
              false⟩] := by
        rw [show process_failed_pins maxR pinOk db
            = (get_cids_by_status .failed_pin db).foldl (failedPinStep maxR pinOk) db from rfl,
          hunp, hstep]
        exact unpRowsFor_addUnp_self r.cid _ _
      exact ⟨_, mem_of_unpRowsFor _ _ _ hu, rfl, rfl⟩
  · have hstep : failedPinStep maxR pinOk dmid (r.cid, r.retry_count)
        = add_unpinnable_cid r.cid
            ("Failed after " ++ toString (r.retry_count + 1) ++ " retries.")
            (remove_cid_from_pinning r.cid dmid) := by
      unfold failedPinStep
      rw [if_neg h0, if_neg (by simp [hfail]), if_pos hmax]
    constructor
    · apply not_mem_keys_of_rowsFor_nil
      rw [show process_failed_pins maxR pinOk db
          = (get_cids_by_status .failed_pin db).foldl (failedPinStep maxR pinOk) db from rfl,
        hpin, hstep]
      exact pinnedRowsFor_remove_self r.cid _
    · have hu : unpRowsFor r.cid (process_failed_pins maxR pinOk db)
          = [⟨r.cid, "Failed after " ++ toString (r.retry_count + 1) ++ " retries.", false⟩] := by
        rw [show process_failed_pins maxR pinOk db
            = (get_cids_by_status .failed_pin db).foldl (failedPinStep maxR pinOk) db from rfl,
          hunp, hstep]
        exact unpRowsFor_addUnp_self r.cid _ _
      exact ⟨_, mem_of_unpRowsFor _ _ _ hu, rfl, rfl⟩

/-- Helper: re-processing a failed_pin record whose pin attempt fails with
the incremented count still below the bound leaves a failed_pin row with
the incremented count. -/
theorem process_failed_below (maxR : Nat) (pinOk : String → Bool) (db : Db)
    (r : PinRecord) (hnd : (pinnedKeys db).Nodup) (hr : r ∈ db.pinned_cids)
    (hst : r.status = .failed_pin) (hfail : pinOk r.cid = false)
    (hlt : r.retry_count + 1 < maxR) :
    ∃ r2 ∈ (process_failed_pins maxR pinOk db).pinned_cids,
      r2.cid = r.cid ∧ r2.status = .failed_pin ∧ r2.retry_count = r.retry_count + 1 := by
  rcases snapshot_split .failed_pin db r hnd hr hst with ⟨l1, l2, hsplit, h1, h2⟩
  rcases fold_one_hit (failedPinStep maxR pinOk) r.cid
      (fun d p hp => failedPinStep_frame maxR pinOk r.cid d p hp)
      _ l1 l2 r.retry_count db hsplit h1 h2 with ⟨dmid, hmid, _, hpin, _⟩
  have hstep : failedPinStep maxR pinOk dmid (r.cid, r.retry_count)
      = update_cid_status r.cid .failed_pin (some (r.retry_count + 1)) dmid := by
    unfold failedPinStep
    rw [if_neg (by omega), if_neg (by simp [hfail]), if_neg (by omega)]
  have hrows : pinnedRowsFor r.cid (process_failed_pins maxR pinOk db)
      = (pinnedRowsFor r.cid db).map
          (fun x => { x with status := .failed_pin, retry_count := r.retry_count + 1 }) := by
    rw [show process_failed_pins maxR pinOk db
        = (get_cids_by_status .failed_pin db).foldl (failedPinStep maxR pinOk) db from rfl,
      hpin, hstep, pinnedRowsFor_update_self, hmid]
  have hr2 : ({ r with status := .failed_pin, retry_count := r.retry_count + 1 } : PinRecord)
      ∈ pinnedRowsFor r.cid (process_failed_pins maxR pinOk db) := by
    rw [hrows]
    exact List.mem_map_of_mem _ (mem_rowsFor_self r db hr)
  exact ⟨_, List.mem_of_mem_filter hr2, rfl, rfl, rfl⟩

/-- Helper: the unpin worker deletes an unpin_requested record whose
backend unpin reports success. -/
theorem unpin_removes (unpinOk : String → Bool) (db : Db) (r : PinRecord)
    (hnd : (pinnedKeys db).Nodup) (hr : r ∈ db.pinned_cids)
    (hst : r.status = .unpin_requested) (hok : unpinOk r.cid = true) :
    r.cid ∉ pinnedKeys (process_unpin_requests unpinOk db) := by
  rcases snapshot_split .unpin_requested db r hnd hr hst with ⟨l1, l2, hsplit, h1, h2⟩
  rcases fold_one_hit (unpinStep unpinOk) r.cid
      (fun d p hp => unpinStep_frame unpinOk r.cid d p hp)
      _ l1 l2 r.retry_count db hsplit h1 h2 with ⟨dmid, _, _, hpin, _⟩
  have hstep : unpinStep unpinOk dmid (r.cid, r.retry_count)
      = remove_cid_from_pinning r.cid dmid := by
    unfold unpinStep
    rw [if_pos hok]
  apply not_mem_keys_of_rowsFor_nil
  rw [show process_unpin_requests unpinOk db
      = (get_cids_by_status .unpin_requested db).foldl (unpinStep unpinOk) db from rfl,
    hpin, hstep]
  exact pinnedRowsFor_remove_self r.cid _

/-- Helper: the unpin worker reverts an unpin_requested record whose
backend unpin fails to failed_pin, keeping its retry count. -/
theorem unpin_failure_reverts (unpinOk : String → Bool) (db : Db) (r : PinRecord)
    (hnd : (pinnedKeys db).Nodup) (hr : r ∈ db.pinned_cids)
    (hst : r.status = .unpin_requested) (hfail : unpinOk r.cid = false) :
    ∃ r2 ∈ (process_unpin_requests unpinOk db).pinned_cids,
      r2.cid = r.cid ∧ r2.status = .failed_pin ∧ r2.retry_count = r.retry_count := by
  rcases snapshot_split .unpin_requested db r hnd hr hst with ⟨l1, l2, hsplit, h1, h2⟩
  rcases fold_one_hit (unpinStep unpinOk) r.cid
      (fun d p hp => unpinStep_frame unpinOk r.cid d p hp)
      _ l1 l2 r.retry_count db hsplit h1 h2 with ⟨dmid, hmid, _, hpin, _⟩
  have hstep : unpinStep unpinOk dmid (r.cid, r.retry_count)
      = update_cid_status r.cid .failed_pin none dmid := by
    unfold unpinStep
    rw [if_neg (by simp [hfail])]
  have hrows : pinnedRowsFor r.cid (process_unpin_requests unpinOk db)
      = (pinnedRowsFor r.cid db).map (fun x => { x with status := PinStatus.failed_pin }) := by
    rw [show process_unpin_requests unpinOk db
        = (get_cids_by_status .unpin_requested db).foldl (unpinStep unpinOk) db from rfl,
      hpin, hstep, pinnedRowsFor_update_self, hmid]
  have hr2 : ({ r with status := PinStatus.failed_pin } : PinRecord)
      ∈ pinnedRowsFor r.cid (process_unpin_requests unpinOk db) := by
    rw [hrows]
    exact List.mem_map_of_mem _ (mem_rowsFor_self r db hr)
  exact ⟨_, List.mem_of_mem_filter hr2, rfl, rfl, rfl⟩

/-- C2: a PinRecord whose retry_count is MAX_PIN_RETRIES − 1 (that is,
retry_count + 1 = MAX_PIN_RETRIES) that fails one more pin attempt — in
process_pending_pins or in process_failed_pins — is deleted from
pinned_cids and an UnpinnableRecord is upserted for its CID (fresh, so
not yet reported); it is not left in failed_pin and cannot be retried
again.  Conversely, when the incremented count is still below
MAX_PIN_RETRIES, the record is set to failed_pin with the incremented
count. -/
theorem c2_retry_bound (maxR : Nat) (pinOk : String → Bool) (db : Db) (r : PinRecord)
    (hnd : (pinnedKeys db).Nodup) (hr : r ∈ db.pinned_cids)
    (hfail : pinOk r.cid = false) :
    (r.status = .pending_pin → r.retry_count + 1 = maxR →
      r.cid ∉ pinnedKeys (process_pending_pins maxR pinOk db)
      ∧ ∃ u ∈ (process_pending_pins maxR pinOk db).unpinnable_cids,
          u.cid = r.cid ∧ u.reported = false)
    ∧ (r.status = .pending_pin → r.retry_count + 1 < maxR →
      ∃ r2 ∈ (process_pending_pins maxR pinOk db).pinned_cids,
        r2.cid = r.cid ∧ r2.status = .failed_pin ∧ r2.retry_count = r.retry_count + 1)
    ∧ (r.status = .failed_pin → r.retry_count + 1 = maxR →
      r.cid ∉ pinnedKeys (process_failed_pins maxR pinOk db)
      ∧ ∃ u ∈ (process_failed_pins maxR pinOk db).unpinnable_cids,
          u.cid = r.cid ∧ u.reported = false)
    ∧ (r.status = .failed_pin → r.retry_count + 1 < maxR →
      ∃ r2 ∈ (process_failed_pins maxR pinOk db).pinned_cids,
        r2.cid = r.cid ∧ r2.status = .failed_pin ∧ r2.retry_count = r.retry_count + 1) :=
  ⟨fun hst hmax => process_pending_exhausted maxR pinOk db r hnd hr hst hfail (le_of_eq hmax.symm),
   fun hst hlt => process_pending_below maxR pinOk db r hnd hr hst hfail hlt,
   fun hst hmax => process_failed_exhausted maxR pinOk db r hnd hr hst hfail (le_of_eq hmax.symm),
   fun hst hlt => process_failed_below maxR pinOk db r hnd hr hst hfail hlt⟩

/-- Witness for C2: one pending_pin record one failure short of the bound
(MAX_PIN_RETRIES = 5, retry_count = 4) and one still below it. -/
theorem c2_witness :
    (pinnedKeys ⟨[⟨"QmA", .pending_pin, 4⟩], [], []⟩).Nodup
    ∧ (⟨"QmA", .pending_pin, 4⟩ : PinRecord) ∈
        (⟨[⟨"QmA", .pending_pin, 4⟩], [], []⟩ : Db).pinned_cids
    ∧ ((fun _ => false) : String → Bool) "QmA" = false
    ∧ ("QmA" ∉ pinnedKeys (process_pending_pins 5 (fun _ => false)
          ⟨[⟨"QmA", .pending_pin, 4⟩], [], []⟩)
        ∧ ∃ u ∈ (process_pending_pins 5 (fun _ => false)
            ⟨[⟨"QmA", .pending_pin, 4⟩], [], []⟩).unpinnable_cids,
            u.cid = "QmA" ∧ u.reported = false) := by
  refine ⟨by decide, by decide, rfl, ?_⟩
  exact (c2_retry_bound 5 (fun _ => false) ⟨[⟨"QmA", .pending_pin, 4⟩], [], []⟩
    ⟨"QmA", .pending_pin, 4⟩ (by decide) (by decide) rfl).1 rfl (by decide)

/-- C7: for every unpin_requested PinRecord processed by
process_unpin_requests, a successful backend unpin (the outcome oracle is
`true`, which per `unpin_cid_outcome` includes the normalized
"not pinned" protocol answer) deletes the record from pinned_cids, and a
failed unpin sets its status to failed_pin leaving retry_count unchanged. -/
theorem c7_unpin_processing (unpinOk : String → Bool) (db : Db) (r : PinRecord)
    (hnd : (pinnedKeys db).Nodup) (hr : r ∈ db.pinned_cids)
    (hst : r.status = .unpin_requested) :
    (unpinOk r.cid = true → r.cid ∉ pinnedKeys (process_unpin_requests unpinOk db))
    ∧ (unpinOk r.cid = false →
        ∃ r2 ∈ (process_unpin_requests unpinOk db).pinned_cids,
          r2.cid = r.cid ∧ r2.status = .failed_pin ∧ r2.retry_count = r.retry_count)
    ∧ unpin_cid_outcome 500 (IpfsErrorBody.jsonMsg "path is not pinned") = true :=
  ⟨fun hok => unpin_removes unpinOk db r hnd hr hst hok,
   fun hfail => unpin_failure_reverts unpinOk db r hnd hr hst hfail,
   by decide⟩

/-- Witness for C7 at a store holding one unpin_requested record whose
backend unpin succeeds. -/
theorem c7_witness :
    (pinnedKeys ⟨[⟨"QmB", .unpin_requested, 2⟩], [], []⟩).Nodup
    ∧ (⟨"QmB", .unpin_requested, 2⟩ : PinRecord) ∈
        (⟨[⟨"QmB", .unpin_requested, 2⟩], [], []⟩ : Db).pinned_cids
    ∧ ("QmB" ∉ pinnedKeys (process_unpin_requests (fun _ => true)
        ⟨[⟨"QmB", .unpin_requested, 2⟩], [], []⟩)) := by
  refine ⟨by decide, by decide, ?_⟩
  exact (c7_unpin_processing (fun _ => true) ⟨[⟨"QmB", .unpin_requested, 2⟩], [], []⟩
    ⟨"QmB", .unpin_requested, 2⟩ (by decide) (by decide) rfl).1 rfl

/-- C10: add_cid_to_pin on a CID whose record's status is anything other
than failed_pin leaves the whole store unchanged (status and retry_count
included); consequently a CID that re-enters the desired set while its
record is still unpin_requested keeps that status, and a successful pass
of the unpin worker then deletes it. -/
theorem c10_add_cid_frame (unpinOk : String → Bool) (db : Db) (c : String) (r : PinRecord)
    (hnd : (pinnedKeys db).Nodup) (hr : r ∈ db.pinned_cids) (hc : r.cid = c)
    (hs : r.status ≠ .failed_pin) :
    add_cid_to_pin c db = db
    ∧ (r.status = .unpin_requested → unpinOk c = true →
        c ∉ pinnedKeys (process_unpin_requests unpinOk (add_cid_to_pin c db))) := by
  have hany : (db.pinned_cids.any (fun x => x.cid == c)) = true :=
    List.any_eq_true.mpr ⟨r, hr, by simp [hc]⟩
  have htab : add_cid_to_pin c db = db := by
    unfold add_cid_to_pin
    rw [if_pos hany]
    have hmap := map_congr_mem (fun x : PinRecord =>
        if x.cid == c && x.status == PinStatus.failed_pin then
          { x with status := .pending_pin, retry_count := 0 } else x) id db.pinned_cids
      (fun x hx => by
        by_cases hxc : (x.cid == c) = true
        · have hxr : x = r := List.inj_on_of_nodup_map hnd hx hr (by
            have hxcc : x.cid = c := by simpa using hxc
            rw [hxcc, hc])
          have hsf : (x.status == PinStatus.failed_pin) = false := by
            rw [hxr]
            exact beq_false_of_ne hs
          simp [hxc, hsf]
        · simp [hxc])
    rw [hmap, List.map_id]
  refine ⟨htab, fun hur hok => ?_⟩
  rw [htab]
  subst hc
  exact unpin_removes unpinOk db r hnd hr hur hok

/-- Witness for C10: a CID re-added while its record is unpin_requested
keeps that record byte-for-byte and is then deleted by a successful unpin
pass. -/
theorem c10_witness :
    (pinnedKeys ⟨[⟨"QmC", .unpin_requested, 1⟩], [], []⟩).Nodup
    ∧ (⟨"QmC", .unpin_requested, 1⟩ : PinRecord) ∈
        (⟨[⟨"QmC", .unpin_requested, 1⟩], [], []⟩ : Db).pinned_cids
    ∧ add_cid_to_pin "QmC" ⟨[⟨"QmC", .unpin_requested, 1⟩], [], []⟩
        = ⟨[⟨"QmC", .unpin_requested, 1⟩], [], []⟩ := by
  refine ⟨by decide, by decide, ?_⟩
  exact (c10_add_cid_frame (fun _ => true) ⟨[⟨"QmC", .unpin_requested, 1⟩], [], []⟩
    "QmC" ⟨"QmC", .unpin_requested, 1⟩ (by decide) (by decide) rfl (by decide)).1

/-- Helper: the teardown fold does not touch the miner_profile table. -/
theorem fold_update_profile (s : PinStatus) :
    ∀ (l : List (String × Nat)) (d : Db),
      (l.foldl (fun d p => update_cid_status p.1 s none d) d).miner_profile = d.miner_profile
  | [], _ => rfl
  | p :: l, d => (fold_update_profile s l (update_cid_status p.1 s none d)).trans rfl

/-- Helper: the teardown fold does not touch the unpinnable_cids table. -/
theorem fold_update_unp (s : PinStatus) :
    ∀ (l : List (String × Nat)) (d : Db),
      (l.foldl (fun d p => update_cid_status p.1 s none d) d).unpinnable_cids
        = d.unpinnable_cids
  | [], _ => rfl
  | p :: l, d => (fold_update_unp s l (update_cid_status p.1 s none d)).trans rfl

/-- Helper: the teardown fold acts on the pinned_cids table as a single
row-wise map of the per-row update fold. -/
theorem fold_update_pinned (s : PinStatus) :
    ∀ (l : List (String × Nat)) (d : Db),
      (l.foldl (fun d p => update_cid_status p.1 s none d) d).pinned_cids
      = d.pinned_cids.map (fun x =>
          l.foldl (fun x p => if x.cid == p.1 then { x with status := s } else x) x)
  | [], d => by simp
  | p :: l, d => by
    simp only [List.foldl_cons]
    rw [fold_update_pinned s l (update_cid_status p.1 s none d)]
    show (d.pinned_cids.map (fun x =>
        if x.cid == p.1 then { x with status := s } else x)).map _ = _
    rw [List.map_map]
    rfl

/-- Helper: the per-row update fold sets the status exactly when the row's
CID occurs in the folded snapshot entries. -/
theorem pointwise_unpin_fold (s : PinStatus) :
    ∀ (l : List (String × Nat)) (x : PinRecord),
      l.foldl (fun x p => if x.cid == p.1 then { x with status := s } else x) x
      = if x.cid ∈ l.map Prod.fst then { x with status := s } else x
  | [], x => by simp
  | p :: l, x => by
    simp only [List.foldl_cons, List.map_cons]
    by_cases hx : (x.cid == p.1) = true
    · rw [if_pos hx]
      rw [pointwise_unpin_fold s l _]
      have hxc : x.cid = p.1 := by simpa using hx
      simp [hxc, List.mem_cons, ite_self]
    · rw [if_neg hx]
      rw [pointwise_unpin_fold s l x]
      have hxc : ¬x.cid = p.1 := by simpa using hx
      by_cases hm : x.cid ∈ l.map Prod.fst <;> simp [hm, hxc, List.mem_cons]

/-- Helper: membership in the CID column of a status snapshot. -/
theorem mem_fst_get_cids (s : PinStatus) (db : Db) (c : String) :
    c ∈ (get_cids_by_status s db).map Prod.fst ↔
      ∃ r ∈ db.pinned_cids, r.cid = c ∧ r.status = s := by
  unfold get_cids_by_status
  rw [List.map_map]
  constructor
  · intro h
    rcases List.mem_map.mp h with ⟨r, hr, hrc⟩
    exact ⟨r, List.mem_of_mem_filter hr, hrc, by simpa using List.of_mem_filter hr⟩
  · rintro ⟨r, hr, hrc, hrs⟩
    exact List.mem_map.mpr ⟨r, List.mem_filter.mpr ⟨hr, by simp [hrs]⟩, hrc⟩

/-- C3: when the chain reports no profile CID while a (non-empty) profile
is active in the store, fetch_and_process_profile deactivates every
profile row and transitions exactly the PinRecords with status pending_pin,
pinned or failed_pin to unpin_requested, leaving rows in other states, the
retry counts, and the unpinnable_cids table untouched — and changes
nothing else in the store. -/
theorem c3_teardown (pinOk : String → Bool) (content : Option (List (Option (List Nat))))
    (is_startup : Bool) (db : Db) (pc : String) (pl : Bool)
    (hact : get_active_miner_profile db = some (pc, pl)) (hpc : pc ≠ "")
    (hnd : (pinnedKeys db).Nodup) :
    fetch_and_process_profile none pinOk content is_startup db
      = { db with
          pinned_cids := db.pinned_cids.map (fun r =>
            if r.status = .pinned ∨ r.status = .pending_pin ∨ r.status = .failed_pin
            then { r with status := .unpin_requested } else r),
          miner_profile := db.miner_profile.map deactRow } := by
  have hred : fetch_and_process_profile none pinOk content is_startup db
      = (get_cids_by_status .pinned (set_active_miner_profile none db)
          ++ get_cids_by_status .pending_pin (set_active_miner_profile none db)
          ++ get_cids_by_status .failed_pin (set_active_miner_profile none db)).foldl
          (fun d p => update_cid_status p.1 .unpin_requested none d)
          (set_active_miner_profile none db) := by
    simp [fetch_and_process_profile, hact, hpc]
  rw [hred]
  have hpinned : ((get_cids_by_status .pinned (set_active_miner_profile none db)
      ++ get_cids_by_status .pending_pin (set_active_miner_profile none db)
      ++ get_cids_by_status .failed_pin (set_active_miner_profile none db)).foldl
      (fun d p => update_cid_status p.1 .unpin_requested none d)
      (set_active_miner_profile none db)).pinned_cids
      = db.pinned_cids.map (fun r =>
          if r.status = .pinned ∨ r.status = .pending_pin ∨ r.status = .failed_pin
          then { r with status := .unpin_requested } else r) := by
    rw [fold_update_pinned]
    show db.pinned_cids.map _ = _
    apply map_congr_mem
    intro x hx
    rw [pointwise_unpin_fold]
    have hiff : ∀ ss : PinStatus,
        x.cid ∈ (get_cids_by_status ss (set_active_miner_profile none db)).map Prod.fst
          ↔ x.status = ss := by
      intro ss
      rw [mem_fst_get_cids]
      constructor
      · rintro ⟨r2, hr2, hrc, hrs⟩
        have hre : r2 = x := List.inj_on_of_nodup_map hnd hr2 hx hrc
        rw [← hre]
        exact hrs
      · intro hsx
        exact ⟨x, hx, rfl, hsx⟩
    have hcond : (x.cid ∈ ((get_cids_by_status .pinned (set_active_miner_profile none db)
        ++ get_cids_by_status .pending_pin (set_active_miner_profile none db)
        ++ get_cids_by_status .failed_pin (set_active_miner_profile none db)).map Prod.fst))
        ↔ (x.status = .pinned ∨ x.status = .pending_pin ∨ x.status = .failed_pin) := by
      rw [List.map_append, List.map_append, List.mem_append, List.mem_append,
        hiff .pinned, hiff .pending_pin, hiff .failed_pin]
      tauto
    by_cases h : x.status = .pinned ∨ x.status = .pending_pin ∨ x.status = .failed_pin
    · rw [if_pos (hcond.mpr h), if_pos h]
    · rw [if_neg (fun hm => h (hcond.mp hm)), if_neg h]
  have hprof := fold_update_profile .unpin_requested
    (get_cids_by_status .pinned (set_active_miner_profile none db)
      ++ get_cids_by_status .pending_pin (set_active_miner_profile none db)
      ++ get_cids_by_status .failed_pin (set_active_miner_profile none db))
    (set_active_miner_profile none db)
  have hunp := fold_update_unp .unpin_requested
    (get_cids_by_status .pinned (set_active_miner_profile none db)
      ++ get_cids_by_status .pending_pin (set_active_miner_profile none db)
      ++ get_cids_by_status .failed_pin (set_active_miner_profile none db))
    (set_active_miner_profile none db)
  exact Db.ext hpinned hprof hunp

/-- Witness for C3 on a small store with one record in each status. -/
theorem c3_witness :
    get_active_miner_profile
        ⟨[⟨"QmP", .pinned, 0⟩, ⟨"QmQ", .pending_pin, 1⟩, ⟨"QmF", .failed_pin, 2⟩,
          ⟨"QmU", .unpin_requested, 0⟩],
         [⟨"QmDoc", true, true⟩], [⟨"QmBad", "r", true⟩]⟩
      = some ("QmDoc", true)
    ∧ ("QmDoc" : String) ≠ ""
    ∧ (pinnedKeys
        ⟨[⟨"QmP", .pinned, 0⟩, ⟨"QmQ", .pending_pin, 1⟩, ⟨"QmF", .failed_pin, 2⟩,
          ⟨"QmU", .unpin_requested, 0⟩],
         [⟨"QmDoc", true, true⟩], [⟨"QmBad", "r", true⟩]⟩).Nodup
    ∧ fetch_and_process_profile none (fun _ => true) none false
        ⟨[⟨"QmP", .pinned, 0⟩, ⟨"QmQ", .pending_pin, 1⟩, ⟨"QmF", .failed_pin, 2⟩,
          ⟨"QmU", .unpin_requested, 0⟩],
         [⟨"QmDoc", true, true⟩], [⟨"QmBad", "r", true⟩]⟩
      = ⟨[⟨"QmP", .unpin_requested, 0⟩, ⟨"QmQ", .unpin_requested, 1⟩,
          ⟨"QmF", .unpin_requested, 2⟩, ⟨"QmU", .unpin_requested, 0⟩],
         [⟨"QmDoc", false, false⟩], [⟨"QmBad", "r", true⟩]⟩ := by
  refine ⟨by decide, by decide, by decide, ?_⟩
  rw [c3_teardown (fun _ => true) none false
    ⟨[⟨"QmP", .pinned, 0⟩, ⟨"QmQ", .pending_pin, 1⟩, ⟨"QmF", .failed_pin, 2⟩,
      ⟨"QmU", .unpin_requested, 0⟩],
     [⟨"QmDoc", true, true⟩], [⟨"QmBad", "r", true⟩]⟩ "QmDoc" true
    (by decide) (by decide) (by decide)]
  decide

/-- Helper: find? of an is_active-preserving map finds the mapped row. -/
theorem find_active_map (g : ProfileRecord → ProfileRecord)
    (hpres : ∀ p, (g p).is_active = p.is_active) :
    ∀ l : List ProfileRecord,
      (l.map g).find? (fun p => p.is_active) = (l.find? (fun p => p.is_active)).map g
  | [] => rfl
  | p :: l => by
    cases hp : p.is_active with
    | true =>
      rw [List.map_cons, List.find?_cons_of_pos _ (by rw [hpres p]; exact hp),
        List.find?_cons_of_pos _ hp, Option.map_some']
    | false =>
      rw [List.map_cons, List.find?_cons_of_neg _ (by rw [hpres p]; simp [hp]),
        List.find?_cons_of_neg _ (by simp [hp])]
      exact find_active_map g hpres l

/-- Helper: with the active profile matching the (non-empty) on-chain CID
and not at startup, fetch_and_process_profile takes the fast path of
miner_service.py lines 136-143. -/
theorem fetch_fast_path (pinOk : String → Bool) (content : Option (List (Option (List Nat))))
    (db : Db) (pc : String) (pl : Bool)
    (hact : get_active_miner_profile db = some (pc, pl)) (hpc : pc ≠ "") :
    fetch_and_process_profile (some pc) pinOk content false db
      = if pl = false then
          (if pinOk pc then
            update_cid_status pc .pinned none (update_miner_profile_pinned_status pc true db)
          else db)
        else db := by
  simp [fetch_and_process_profile, hact, hpc]

/-- C8: re-running fetch_and_process_profile (not at startup) when the
on-chain profile CID equals the stored active profile CID never creates,
resets or removes any content-level record of pinned_cids (every row with
a CID other than the profile document's is untouched), never touches
unpinnable_cids, and changes the miner_profile table at most in the
pinned_locally flag; running it twice leaves the content-level rows equal
to the original ones (idempotence on the content-level pin set). -/
theorem c8_fast_path_frame (pinOk : String → Bool)
    (content : Option (List (Option (List Nat)))) (db : Db) (pc : String) (pl : Bool)
    (hact : get_active_miner_profile db = some (pc, pl)) (hpc : pc ≠ "") :
    ((fetch_and_process_profile (some pc) pinOk content false db).pinned_cids.filter
        (fun r => !(r.cid == pc))
      = db.pinned_cids.filter (fun r => !(r.cid == pc)))
    ∧ (fetch_and_process_profile (some pc) pinOk content false db).unpinnable_cids
      = db.unpinnable_cids
    ∧ ((fetch_and_process_profile (some pc) pinOk content false db).miner_profile.map
        (fun p => { p with pinned_locally := false })
      = db.miner_profile.map (fun p => { p with pinned_locally := false }))
    ∧ ((fetch_and_process_profile (some pc) pinOk content false
        (fetch_and_process_profile (some pc) pinOk content false db)).pinned_cids.filter
        (fun r => !(r.cid == pc))
      = db.pinned_cids.filter (fun r => !(r.cid == pc))) := by
  have main : ∀ (d : Db) (b : Bool), get_active_miner_profile d = some (pc, b) →
      ((fetch_and_process_profile (some pc) pinOk content false d).pinned_cids.filter
          (fun r => !(r.cid == pc))
        = d.pinned_cids.filter (fun r => !(r.cid == pc)))
      ∧ (fetch_and_process_profile (some pc) pinOk content false d).unpinnable_cids
        = d.unpinnable_cids
      ∧ ((fetch_and_process_profile (some pc) pinOk content false d).miner_profile.map
          (fun p => { p with pinned_locally := false })
        = d.miner_profile.map (fun p => { p with pinned_locally := false }))
      ∧ ∃ b2, get_active_miner_profile (fetch_and_process_profile (some pc) pinOk content false d)
          = some (pc, b2) := by
    intro d b hactd
    rw [fetch_fast_path pinOk content d pc b hactd hpc]
    by_cases hb : b = false
    · rw [if_pos hb]
      by_cases hok : (pinOk pc) = true
      · rw [if_pos hok]
        refine ⟨?_, rfl, ?_, ?_⟩
        · apply filter_map_id
          · intro x
            by_cases hx : (x.cid == pc) = true <;> simp [hx]
          · intro x hx
            have hxn : (x.cid == pc) = false := by simpa using hx
            simp [hxn]
        · show ((d.miner_profile.map (fun p =>
              if p.profile_cid == pc && p.is_active then
                { p with pinned_locally := true } else p)).map
              (fun p => { p with pinned_locally := false }))
            = d.miner_profile.map (fun p => { p with pinned_locally := false })
          exact map_map_of_pres
            (fun p : ProfileRecord => if p.profile_cid == pc && p.is_active then
              { p with pinned_locally := true } else p)
            (fun p : ProfileRecord => { p with pinned_locally := false })
            (fun p => by
              by_cases hp2 : (p.profile_cid == pc && p.is_active) = true <;> simp [hp2])
            d.miner_profile
        · rcases Option.map_eq_some'.mp hactd with ⟨p0, hp0, hp0e⟩
          have hcid : p0.profile_cid = pc := congrArg Prod.fst hp0e
          have hp0act : p0.is_active = true := List.find?_some hp0
          refine ⟨true, ?_⟩
          show ((d.miner_profile.map (fun p =>
              if p.profile_cid == pc && p.is_active then
                { p with pinned_locally := true } else p)).find?
              (fun p => p.is_active)).map (fun p => (p.profile_cid, p.pinned_locally))
            = some (pc, true)
          rw [find_active_map
            (fun p : ProfileRecord => if p.profile_cid == pc && p.is_active then
              { p with pinned_locally := true } else p)
            (fun p => by
              by_cases hp2 : (p.profile_cid == pc && p.is_active) = true <;> simp [hp2])
            d.miner_profile, hp0]
          simp [hcid, hp0act]
      · rw [if_neg hok]
        exact ⟨rfl, rfl, rfl, ⟨b, hactd⟩⟩
    · rw [if_neg hb]
      exact ⟨rfl, rfl, rfl, ⟨b, hactd⟩⟩
  obtain ⟨h1, h2, h3, b2, h4⟩ := main db pl hact
  refine ⟨h1, h2, h3, ?_⟩
  obtain ⟨h1b, _, _, _⟩ := main _ b2 h4
  rw [h1b, h1]

/-- Witness for C8 on a store with one content record and the profile
document not yet pinned locally. -/
theorem c8_witness :
    get_active_miner_profile ⟨[⟨"QmX", .pinned, 0⟩], [⟨"QmDoc", true, false⟩], []⟩
      = some ("QmDoc", false)
    ∧ ("QmDoc" : String) ≠ ""
    ∧ (fetch_and_process_profile (some "QmDoc") (fun _ => true) none false
        ⟨[⟨"QmX", .pinned, 0⟩], [⟨"QmDoc", true, false⟩], []⟩).pinned_cids.filter
        (fun r => !(r.cid == "QmDoc"))
      = (⟨[⟨"QmX", .pinned, 0⟩], [⟨"QmDoc", true, false⟩], []⟩ : Db).pinned_cids.filter
        (fun r => !(r.cid == "QmDoc")) := by
  refine ⟨by decide, by decide, ?_⟩
  exact (c8_fast_path_frame (fun _ => true) none
    ⟨[⟨"QmX", .pinned, 0⟩], [⟨"QmDoc", true, false⟩], []⟩ "QmDoc" false
    (by decide) (by decide)).1

/-- Helper: the report loop records every flushed CID for the store
update, in order. -/
theorem report_fold_newly (now : Nat) :
    ∀ (l : List (String × String)) (start : List ReportEntry) (newly : List String),
      (l.foldl (reportStep now) (start, newly)).2 = newly ++ l.map Prod.fst
  | [], _, newly => by simp
  | p :: l, start, newly => by
    simp only [List.foldl_cons, reportStep]
    rw [report_fold_newly now l _ _]
    simp

/-- Helper: the number of entries for `c` after the report loop — it
becomes 1 when `c` is among the flushed CIDs and was absent, and is
otherwise unchanged. -/
theorem report_fold_count (now : Nat) (c : String) :
    ∀ (l : List (String × String)) (start : List ReportEntry) (newly : List String),
      (l.map Prod.fst).Nodup →
      (l.foldl (reportStep now) (start, newly)).1.countP (fun e => e.cid == c)
        = if c ∈ l.map Prod.fst ∧ start.countP (fun e => e.cid == c) = 0 then 1
          else start.countP (fun e => e.cid == c)
  | [], start, newly, _ => by simp
  | (c1, r1) :: l, start, newly, hnd => by
    rw [List.map_cons, List.nodup_cons] at hnd
    simp only [List.foldl_cons, List.map_cons]
    by_cases hc1 : c1 = c
    · subst hc1
      by_cases hstart : start.countP (fun e => e.cid == c1) = 0
      · have hany : (start.any (fun e => e.cid == c1)) = false := by
          cases hA : start.any (fun e => e.cid == c1) with
          | false => rfl
          | true =>
            rcases List.any_eq_true.mp hA with ⟨e, he, hec⟩
            exact absurd hec (List.countP_eq_zero.mp hstart e he)
        rw [show reportStep now (start, newly) (c1, r1)
            = (start ++ [ReportEntry.mk c1 r1 now], newly ++ [c1]) from by
          unfold reportStep
          rw [hany]
          rfl]
        rw [report_fold_count now c1 l _ _ hnd.2]
        have hone : (start ++ [ReportEntry.mk c1 r1 now]).countP (fun e => e.cid == c1) = 1 := by
          rw [List.countP_append, hstart]
          simp
        rw [hone]
        have hnotin : c1 ∉ List.map Prod.fst l := hnd.1
        rw [if_neg (fun h => hnotin h.1), if_pos ⟨List.mem_cons_self c1 _, hstart⟩]
      · have hany : (start.any (fun e => e.cid == c1)) = true := by
          cases hA : start.any (fun e => e.cid == c1) with
          | true => rfl
          | false =>
            exfalso
            apply hstart
            refine List.countP_eq_zero.mpr ?_
            intro e he hec
            have : (start.any (fun e => e.cid == c1)) = true :=
              List.any_eq_true.mpr ⟨e, he, hec⟩
            rw [hA] at this
            cases this
        rw [show reportStep now (start, newly) (c1, r1) = (start, newly ++ [c1]) from by
          unfold reportStep
          rw [hany]
          rfl]
        rw [report_fold_count now c1 l _ _ hnd.2]
        rw [if_neg (fun h => hstart h.2), if_neg (fun h => hstart h.2)]
    · have hne : ¬(c = c1) := fun h => hc1 h.symm
      have hdata : (reportStep now (start, newly) (c1, r1)).1.countP (fun e => e.cid == c)
          = start.countP (fun e => e.cid == c) := by
        unfold reportStep
        by_cases hany : (start.any (fun e => e.cid == c1)) = true
        · rw [hany]
          rfl
        · have hanyf : (start.any (fun e => e.cid == c1)) = false := by
            cases hA : start.any (fun e => e.cid == c1) with
            | false => rfl
            | true => exact absurd hA hany
          rw [hanyf]
          show (start ++ [ReportEntry.mk c1 r1 now]).countP (fun e => e.cid == c)
            = start.countP (fun e => e.cid == c)
          rw [List.countP_append]
          simp [beq_false_of_ne hc1]
      have hsec : (reportStep now (start, newly) (c1, r1)).2 = newly ++ [c1] := rfl
      have hpair : reportStep now (start, newly) (c1, r1)
          = ((reportStep now (start, newly) (c1, r1)).1,
             (reportStep now (start, newly) (c1, r1)).2) := rfl
      rw [hpair, hsec]
      rw [report_fold_count now c l _ _ hnd.2, hdata]
      have hmemiff : (c ∈ c1 :: List.map Prod.fst l) ↔ c ∈ List.map Prod.fst l := by
        constructor
        · intro hm
          rcases List.mem_cons.mp hm with h | h
          · exact absurd h hne
          · exact h
        · exact fun hm => List.mem_cons_of_mem _ hm
      by_cases hcnd : c ∈ List.map Prod.fst l ∧ start.countP (fun e => e.cid == c) = 0
      · rw [if_pos hcnd, if_pos ⟨hmemiff.mpr hcnd.1, hcnd.2⟩]
      · rw [if_neg hcnd, if_neg (fun h => hcnd ⟨hmemiff.mp h.1, h.2⟩)]

/-- Helper: the starting document's entry count agrees with reportCount. -/
theorem reportStart_count (c : String) (file : Option ReportContent) :
    (reportStart file).countP (fun e => e.cid == c) = reportCount c file := by
  cases file with
  | none => rfl
  | some content => cases content <;> rfl

/-- Helper: an unreported unpinnable row appears in the flush list. -/
theorem mem_unp_report (db : Db) (u : UnpinnableRecord)
    (hu : u ∈ db.unpinnable_cids) (hur : u.reported = false) :
    (u.cid, u.reason) ∈ get_unpinnable_cids_to_report db := by
  unfold get_unpinnable_cids_to_report
  exact List.mem_map_of_mem _ (List.mem_filter.mpr ⟨hu, by simp [hur]⟩)

/-- Helper: with distinct unpinnable keys, the flush list's CID column is
duplicate free. -/
theorem unp_report_fst_nodup (db : Db) (hnd : (unpinnableKeys db).Nodup) :
    ((get_unpinnable_cids_to_report db).map Prod.fst).Nodup := by
  unfold get_unpinnable_cids_to_report
  rw [List.map_map]
  have hsub : (db.unpinnable_cids.filter (fun u => !u.reported)).Sublist db.unpinnable_cids :=
    List.filter_sublist _
  exact List.Nodup.sublist (hsub.map (fun u => u.cid)) hnd

/-- Helper: after marking, every unpinnable row for a marked CID carries
reported = true. -/
theorem mark_reported_sets (cids : List String) (db : Db) (c : String) (hc : c ∈ cids) :
    ∀ u ∈ (mark_unpinnable_cids_as_reported cids db).unpinnable_cids,
      u.cid = c → u.reported = true := by
  intro u hu huc
  unfold mark_unpinnable_cids_as_reported at hu
  rw [if_neg (by
    intro hemp
    rw [List.isEmpty_iff] at hemp
    rw [hemp] at hc
    cases hc)] at hu
  rcases List.mem_map.mp hu with ⟨u0, _, hmap⟩
  by_cases hcont : (cids.contains u0.cid) = true
  · rw [← hmap, if_pos hcont]
  · rw [if_neg hcont] at hmap
    subst hmap
    exact absurd (by rw [huc]; simpa using hc) hcont

/-- Helper: one run of the reporter over a store in which `c` is
unreported: the document afterwards holds exactly one entry for `c` when
it held none before (and keeps its count otherwise), and `c` is marked
reported in the store. -/
theorem report_run (now : Nat) (file : Option ReportContent) (db : Db) (c : String)
    (hk : (unpinnableKeys db).Nodup)
    (hun : ∃ u ∈ db.unpinnable_cids, u.cid = c ∧ u.reported = false) :
    reportCount c (report_unpinnable_cids now file db).1
      = (if reportCount c file = 0 then 1 else reportCount c file)
    ∧ (∀ u ∈ (report_unpinnable_cids now file db).2.unpinnable_cids,
        u.cid = c → u.reported = true) := by
  obtain ⟨u, hu, huc, hur⟩ := hun
  have hmem : (u.cid, u.reason) ∈ get_unpinnable_cids_to_report db := mem_unp_report db u hu hur
  have hmemc : c ∈ (get_unpinnable_cids_to_report db).map Prod.fst := by
    rw [← huc]
    exact List.mem_map_of_mem Prod.fst hmem
  have hne : ¬((get_unpinnable_cids_to_report db).isEmpty = true) := by
    intro hemp
    rw [List.isEmpty_iff] at hemp
    rw [hemp] at hmem
    cases hmem
  unfold report_unpinnable_cids
  rw [if_neg hne]
  constructor
  · show ((get_unpinnable_cids_to_report db).foldl (reportStep now)
        (reportStart file, [])).1.countP (fun e => e.cid == c)
      = if reportCount c file = 0 then 1 else reportCount c file
    rw [report_fold_count now c _ _ _ (unp_report_fst_nodup db hk), reportStart_count]
    by_cases hz : reportCount c file = 0
    · rw [if_pos ⟨hmemc, hz⟩, if_pos hz]
    · rw [if_neg (fun h => hz h.2), if_neg hz]
  · apply mark_reported_sets
    rw [report_fold_newly, List.nil_append]
    exact hmemc

/-- C9: flushing the same CID — unreported before each of two successive
runs — with the report file carried over intact between them leaves
exactly one entry for that CID in the report document, and the CID is
marked reported in the store after each flush. -/
theorem c9_report_dedup (now1 now2 : Nat) (file0 : Option ReportContent)
    (db0 db1 : Db) (c : String)
    (hk0 : (unpinnableKeys db0).Nodup) (hk1 : (unpinnableKeys db1).Nodup)
    (h0 : ∃ u ∈ db0.unpinnable_cids, u.cid = c ∧ u.reported = false)
    (hfile : reportCount c file0 = 0)
    (h1 : ∃ u ∈ db1.unpinnable_cids, u.cid = c ∧ u.reported = false) :
    reportCount c (report_unpinnable_cids now1 file0 db0).1 = 1
    ∧ (∀ u ∈ (report_unpinnable_cids now1 file0 db0).2.unpinnable_cids,
        u.cid = c → u.reported = true)
    ∧ reportCount c
        (report_unpinnable_cids now2 (report_unpinnable_cids now1 file0 db0).1 db1).1 = 1
    ∧ (∀ u ∈ (report_unpinnable_cids now2
          (report_unpinnable_cids now1 file0 db0).1 db1).2.unpinnable_cids,
        u.cid = c → u.reported = true) := by
  obtain ⟨hc1, hm1⟩ := report_run now1 file0 db0 c hk0 h0
  have hc1e : reportCount c (report_unpinnable_cids now1 file0 db0).1 = 1 := by
    rw [hc1, hfile]
    rfl
  obtain ⟨hc2, hm2⟩ := report_run now2 (report_unpinnable_cids now1 file0 db0).1 db1 c hk1 h1
  have hc2e : reportCount c
      (report_unpinnable_cids now2 (report_unpinnable_cids now1 file0 db0).1 db1).1 = 1 := by
    rw [hc2, hc1e, if_neg (by omega : ¬(1 = 0))]
  exact ⟨hc1e, hm1, hc2e, hm2⟩

/-- Witness for C9: the same CID unreported before both runs, starting
from no report file. -/
theorem c9_witness :
    (unpinnableKeys ⟨[], [], [⟨"QmZ", "failed", false⟩]⟩).Nodup
    ∧ (∃ u ∈ (⟨[], [], [⟨"QmZ", "failed", false⟩]⟩ : Db).unpinnable_cids,
        u.cid = "QmZ" ∧ u.reported = false)
    ∧ reportCount "QmZ" (none : Option ReportContent) = 0
    ∧ reportCount "QmZ"
        (report_unpinnable_cids 7
          (report_unpinnable_cids 3 none ⟨[], [], [⟨"QmZ", "failed", false⟩]⟩).1
          ⟨[], [], [⟨"QmZ", "again", false⟩]⟩).1 = 1 := by
  refine ⟨by decide, ⟨⟨"QmZ", "failed", false⟩, by decide, rfl, rfl⟩, rfl, ?_⟩
  exact (c9_report_dedup 3 7 none ⟨[], [], [⟨"QmZ", "failed", false⟩]⟩
    ⟨[], [], [⟨"QmZ", "again", false⟩]⟩ "QmZ" (by decide) (by decide)
    ⟨⟨"QmZ", "failed", false⟩, by decide, rfl, rfl⟩ rfl
    ⟨⟨"QmZ", "again", false⟩, by decide, rfl, rfl⟩).2.2.1

/-- C4: the CID decoder satisfies the four literal cases from the spec
(and from main_test_substrate in the source): the 0x-prefixed hex of a
UTF-8 CID decodes to that CID; the literal base-16 string decodes to
itself; the already-CID-shaped string decodes to itself; the non-hex
0x-string decodes to no result. -/
theorem c4_decoder_literal_cases :
    decode_hex_bytes_to_cid_string "0x516d5568443771523731436f5269356d733478503145366d44316b59773279636e586f4d763273543871394e434d"
      = some "QmUhD7qR71CoRi5ms4xP1E6mD1kYw2ycnXoMv2sT8q9NCM"
    ∧ decode_hex_bytes_to_cid_string "f017012202c26b46b68ffc68ff99b453c1d30413413422d706483bfa0f98a5e886266e7ae"
      = some "f017012202c26b46b68ffc68ff99b453c1d30413413422d706483bfa0f98a5e886266e7ae"
    ∧ decode_hex_bytes_to_cid_string "QmXgZAUc4pB89nNjV8x7h6X1YsvCnKqjGscHpYPSUxQUY4"
      = some "QmXgZAUc4pB89nNjV8x7h6X1YsvCnKqjGscHpYPSUxQUY4"
    ∧ decode_hex_bytes_to_cid_string "0xThisIsNotHex" = none := by
  refine ⟨by decide, by decide, by decide, by decide⟩

/-- C5 counterexample: the input [122] (the single character code of "z")
is non-empty, its joined string "z" fails hex-of-UTF-8 decoding, is not
plausible hex per case (c), and does not look CID-shaped — yet
decode_profile_file_hash_to_cid returns `some "z"`, not no result as the
claim states: the fallback at miner_service.py line 81 returns the joined
string as-is. -/
theorem c5_counterexample :
    ([122] : List Nat) ≠ []
    ∧ joinChrStr [122] = some "z"
    ∧ utf8OfHex "z" = none
    ∧ (allHexDigits "z"
        && (strStarts (asciiLower "z") "f0" || strStarts (asciiLower "z") "01"
            || decide ("z".length > 40))) = false
    ∧ profileLooksLikeCid "z" = false
    ∧ decode_profile_file_hash_to_cid [122] ≠ none := by decide

/-- Helper: a successful character-code join produces one character per
input value. -/
theorem joinChr_length : ∀ (a : List Nat) (cs : List Char), joinChr a = some cs →
    cs.length = a.length
  | [], cs, h => by
    simp only [joinChr, Option.some.injEq] at h
    simp [← h]
  | v :: vs, cs, h => by
    simp only [joinChr] at h
    cases hv : chrOfCode v with
    | none => rw [hv] at h; cases h
    | some c =>
      cases hvs : joinChr vs with
      | none => rw [hv, hvs] at h; cases h
      | some cs0 =>
        rw [hv, hvs] at h
        cases h
        simp [joinChr_length vs cs0 hvs]

/-- C5 (amended): for every non-empty integer array of scalar character
codes whose joined string cannot be decoded as hex of a UTF-8 string, is
not plausible hex per case (c), and does not look CID-shaped, the profile
file_hash decoder does NOT uniformly fail with no result: when the joined
string is pure ASCII (so the inner handler catches the decode failure) it
returns the joined string itself via the fallback at miner_service.py
line 81; only when the joined string contains a non-ASCII character (so
binascii.unhexlify raises an uncaught plain ValueError handled by the
outer except at lines 83-85) does it return no result. -/
theorem c5_file_hash_fallback (a : List Nat) (s : String)
    (ha : a ≠ []) (hj : joinChrStr a = some s)
    (hb : utf8OfHex s = none)
    (hc : (allHexDigits s
        && (strStarts (asciiLower s) "f0" || strStarts (asciiLower s) "01"
            || decide (s.length > 40))) = false)
    (hd : profileLooksLikeCid s = false) :
    (isAsciiStr s = true → decode_profile_file_hash_to_cid a = some s)
    ∧ (isAsciiStr s = false → decode_profile_file_hash_to_cid a = none) := by
  cases a with
  | nil => exact absurd rfl ha
  | cons v vs =>
    have hlen : s.data.length = vs.length + 1 := by
      rcases Option.map_eq_some'.mp hj with ⟨cs, hcs, hmk⟩
      subst hmk
      simpa using joinChr_length _ _ hcs
    have hs : s ≠ "" := by
      intro h
      rw [h] at hlen
      exact absurd hlen (by simp)
    constructor
    · intro hascii
      simp [decode_profile_file_hash_to_cid, hj, hs, hascii, hb, ite_self]
    · intro hascii
      simp [decode_profile_file_hash_to_cid, hj, hs, hascii]

/-- C6 counterexample: a store error in set_active_miner_profile does not
produce a safe default — the function re-raises (db_manager.py line 175),
propagating the error to its caller. -/
theorem c6_counterexample :
    set_active_miner_profileF true (some "QmA") emptyDb = Except.error ()
    ∧ set_active_miner_profileF true (some "QmA") emptyDb ≠ Except.ok emptyDb :=
  ⟨rfl, fun h => Except.noConfusion h⟩

/-- C6 (amended): on a store I/O error every db_manager function invoked
during a cycle returns a safe default (empty list, none, or the store
unchanged) without propagating the error — except set_active_miner_profile,
which re-raises the error to its caller. -/
theorem c6_store_error_safe_defaults :
    (∀ db s, get_cids_by_statusF true s db = [])
    ∧ (∀ db, get_unpinnable_cids_to_reportF true db = [])
    ∧ (∀ db, get_active_miner_profileF true db = none)
    ∧ (∀ db, get_all_pinned_cids_from_dbF true db = [])
    ∧ (∀ db c, get_cid_detailsF true c db = none)
    ∧ (∀ db c, add_cid_to_pinF true c db = db)
    ∧ (∀ db c s rc, update_cid_statusF true c s rc db = db)
    ∧ (∀ db c r, add_unpinnable_cidF true c r db = db)
    ∧ (∀ db cs, mark_unpinnable_cids_as_reportedF true cs db = db)
    ∧ (∀ db c b, update_miner_profile_pinned_statusF true c b db = db)
    ∧ (∀ db c, remove_cid_from_pinningF true c db = db)
    ∧ (∀ db oc, set_active_miner_profileF true oc db = Except.error ()) :=
  ⟨fun _ _ => rfl, fun _ => rfl, fun _ => rfl, fun _ => rfl, fun _ _ => rfl,
   fun _ _ => rfl, fun _ _ _ _ => rfl, fun _ _ _ => rfl, fun _ _ => rfl,
   fun _ _ _ => rfl, fun _ _ => rfl, fun _ _ => rfl⟩

/-- Witness for the amended C5 theorem: the ASCII input [122] ("z") hits
the return-as-is fallback, the non-ASCII input [252] ("ü") hits the
uncaught-ValueError path and yields no result. -/
theorem c5_witness :
    (([122] : List Nat) ≠ [] ∧ isAsciiStr "z" = true
      ∧ decode_profile_file_hash_to_cid [122] = some "z")
    ∧ (([252] : List Nat) ≠ [] ∧ isAsciiStr "ü" = false
      ∧ decode_profile_file_hash_to_cid [252] = none) :=
  ⟨⟨by decide, by decide,
    (c5_file_hash_fallback [122] "z" (by decide) (by decide) (by decide) (by decide)
      (by decide)).1 (by decide)⟩,
   ⟨by decide, by decide,
    (c5_file_hash_fallback [252] "ü" (by decide) (by decide) (by decide) (by decide)
      (by decide)).2 (by decide)⟩⟩

end MinerIpfs
